import Mathlib

/-!
Verification of the video-translator durable pipeline orchestrator.

Shallow embedding of the repository's TypeScript sources:
* `src/orchestrator/workflows/translation.workflow.ts` (the Temporal workflow),
* `src/orchestrator/activities/translation.activities.ts` (activities, the
  `retryWithBackoff` wrapper, `formatTime`/`pad`, subtitle generation),
* `src/orchestrator/activities/ffmpeg.utils.ts` (file-type detection),
* `src/orchestrator/clients/temporal-client.module.ts` (`startTranslationWorkflow`,
  `extractBaseName`, `queryWorkflowProgress`).

JavaScript numbers appearing as media timestamps are modelled as rationals;
machine floats are not modelled.  The Temporal engine itself (deterministic
replay against a recorded history of activity results, and the activity retry
policy `retry: { maximumAttempts: n }` configured by `proxyActivities`) is not
repository code; it is modelled explicitly below (`runProg` history semantics,
`temporalRetry`) following Temporal's documented behaviour: on replay, recorded
activity results are consumed in order without re-invoking the activity; a
failed activity is re-invoked up to `maximumAttempts` times before the failure
is surfaced to the workflow.
-/

/-! ### JavaScript numeric primitives -/

/-- JavaScript `Math.trunc` (rounding toward zero), on rationals. -/
def jsTrunc (q : ℚ) : ℤ := if 0 ≤ q then ⌊q⌋ else -⌊-q⌋

/-- JavaScript remainder `a % b` (sign of the dividend): `a - b * trunc (a / b)`. -/
def jsRem (a b : ℚ) : ℚ := a - b * jsTrunc (a / b)

/-- JavaScript `String.prototype.padStart(size, c)`. -/
def padStartStr (s : String) (size : ℕ) (c : Char) : String :=
  if size ≤ s.length then s else String.mk (List.replicate (size - s.length) c) ++ s

/-- From `translation.activities.ts`:
`function pad(num, size = 2) { return num.toString().padStart(size, "0") }`.
The integers fed to `pad` are mathematical integers, so `toString` agrees with
`Int.repr`. -/
def pad (num : ℤ) (size : ℕ := 2) : String :=
  padStartStr (toString num) size '0'

/-! ### Error values

A thrown JavaScript error as observed by `retryWithBackoff`: a message, an
optional Node.js error `code` (e.g. `"ECONNRESET"`), and an optional HTTP
`status`. -/

structure JsError where
  message : String
  code : Option String := none
  status : Option ℕ := none
deriving DecidableEq, Repr

/-- Error used by the workflow model when a replay history entry does not have
the shape the workflow expects (cannot happen for histories recorded from the
deterministic workflow itself). -/
def nondeterminismError : JsError := { message := "nondeterministic replay" }

/-- JavaScript `throw lastError` when the retry loop body never ran
(`attempts = 0`): `lastError` is still `undefined`. -/
def undefinedError : JsError := { message := "undefined" }

/-! ### Retry wrapper (`retryWithBackoff`, `translation.activities.ts` lines 41-77) -/

/-- Outcome of a `retryWithBackoff` run: how many times `fn` was invoked, the
backoff delays (ms) slept between attempts, and the final result. -/
structure RetryOut (α : Type) where
  calls : ℕ
  delays : List ℕ
  result : Except JsError α

/-- The codes retried by `retryWithBackoff`:
`errorCode !== "ECONNRESET" && errorCode !== "ETIMEDOUT" && errorCode !== "ENOTFOUND"`. -/
def transientCodes : List String := ["ECONNRESET", "ETIMEDOUT", "ENOTFOUND"]

/-- The inner classification of `retryWithBackoff`: break (no further retry)
when the error code is none of the connection codes and the HTTP status is
truthy and in `[400, 500)`. -/
def isClientErrorBreak (e : JsError) : Bool :=
  (match e.code with
   | some c => !(transientCodes.contains c)
   | none => true) &&
  (match e.status with
   | some s => !(s == 0) && decide (400 ≤ s) && decide (s < 500)
   | none => false)

/-- Loop body of `retryWithBackoff`.  `fn i` is the result of the `i`-th
invocation of the wrapped closure (0-based); `remaining` is the number of loop
iterations left (`attempts - i`), so `remaining = 1` is the last attempt. -/
def retryGo (fn : ℕ → Except JsError α) (delayMs : ℕ) : ℕ → ℕ → RetryOut α
  | 0, _ => { calls := 0, delays := [], result := .error undefinedError }
  | remaining + 1, i =>
    match fn i with
    | .ok a => { calls := 1, delays := [], result := .ok a }
    | .error e =>
      if remaining = 0 then
        -- isLastAttempt: break, then throw lastError
        { calls := 1, delays := [], result := .error e }
      else if isClientErrorBreak e then
        -- client error 4xx: break, then throw lastError
        { calls := 1, delays := [], result := .error e }
      else
        let rest := retryGo fn delayMs remaining (i + 1)
        { calls := 1 + rest.calls
          delays := delayMs * 2 ^ i :: rest.delays
          result := rest.result }

/-- `retryWithBackoff(fn, { attempts, delayMs })` from
`translation.activities.ts`.  `fn i` models the `i`-th call of the closure. -/
def retryWithBackoff (fn : ℕ → Except JsError α) (attempts : ℕ := 3)
    (delayMs : ℕ := 1000) : RetryOut α :=
  retryGo fn delayMs attempts 0

/-! ### Temporal activity retry policy

`translation.workflow.ts` lines 5-10 configure every activity proxy with
`retry: { maximumAttempts: 3 }`.  Temporal (external engine, modelled from its
documented semantics) re-invokes a failed activity until it succeeds or
`maximumAttempts` attempts have failed; the last failure is then surfaced to
the workflow.  `activityAttempt cnt` runs one activity attempt given that
`cnt` external calls have already happened, returning the new call count and
the attempt's result. -/

def temporalRetry (activityAttempt : ℕ → ℕ × Except JsError α) :
    ℕ → ℕ → ℕ × Except JsError α
  | 0, cnt => (cnt, .error undefinedError)
  | remaining + 1, cnt =>
    match activityAttempt cnt with
    | (cnt', .ok a) => (cnt', .ok a)
    | (cnt', .error e) =>
      if remaining = 0 then (cnt', .error e)
      else temporalRetry activityAttempt remaining cnt'

/-- A stage whose activity performs exactly one external call per attempt
(e.g. `translateText`): external call `i` has result `ext i`. -/
def temporalPlainStage (maximumAttempts : ℕ) (ext : ℕ → Except JsError α) :
    ℕ × Except JsError α :=
  temporalRetry (fun cnt => (cnt + 1, ext cnt)) maximumAttempts 0

/-- The transcription stage: each Temporal activity attempt re-runs
`transcribeAudio`, which wraps the Whisper upload in
`retryWithBackoff(fn, { attempts: 3, delayMs: 2000 })`.  External call `i` has
result `ext i`; the manual retry loop inside one activity attempt continues
the global call numbering. -/
def temporalTranscribeStage (maximumAttempts : ℕ) (ext : ℕ → Except JsError α) :
    ℕ × Except JsError α :=
  temporalRetry
    (fun cnt =>
      let r := retryWithBackoff (fun i => ext (cnt + i)) 3 2000
      (cnt + r.calls, r.result))
    maximumAttempts 0

/-! ### File-type detection (`ffmpeg.utils.ts`) -/

/-- The substring after the last `/` (the last element of `split("/")`,
`path.basename`-style). -/
def lastComponentAfterSlash (s : String) : String :=
  String.mk (s.data.foldl (fun acc c => if c = '/' then [] else acc ++ [c]) [])

/-- Node.js `path.extname` on a POSIX path: the final component's suffix from
its last `.`; empty when there is no dot or the only dot leads the component. -/
def pathExtname (s : String) : String :=
  let base := lastComponentAfterSlash s
  let rev := base.data.reverse
  let afterDot := rev.takeWhile (fun c => c ≠ '.')
  if afterDot.length = rev.length then ""          -- no dot in the component
  else if afterDot.length + 1 = rev.length then "" -- the dot is the first char
  else String.mk ('.' :: afterDot.reverse)

/-- `getFileExtension` from `ffmpeg.utils.ts`: the lower-cased `path.extname`
of the input.  (For `http(s)` URLs the source applies `path.extname` to the
parsed URL's pathname; for local paths — the inputs quantified over here — it
applies it to the path itself.  Both are `extname` of a POSIX path string.) -/
def getFileExtension (urlOrPath : String) : String :=
  String.mk ((pathExtname urlOrPath).data.map Char.toLower)

def SUPPORTED_VIDEO_EXTENSIONS : List String :=
  [".mp4", ".mov", ".avi", ".mkv", ".webm", ".flv", ".wmv"]

def SUPPORTED_AUDIO_EXTENSIONS : List String :=
  [".mp3", ".wav", ".m4a", ".ogg", ".flac", ".aac"]

/-- `isVideoFile` from `ffmpeg.utils.ts`. -/
def isVideoFile (urlOrPath : String) : Bool :=
  SUPPORTED_VIDEO_EXTENSIONS.contains (getFileExtension urlOrPath)

/-- `isAudioFile` from `ffmpeg.utils.ts`. -/
def isAudioFile (urlOrPath : String) : Bool :=
  SUPPORTED_AUDIO_EXTENSIONS.contains (getFileExtension urlOrPath)

/-! ### Activity result types (`activities/types.ts`) -/

/-- One transcription segment; `start`/`end` in the source, `end` being a Lean
keyword the second field is called `stop` here. -/
structure Segment where
  start : ℚ
  stop : ℚ
  text : String
deriving DecidableEq, Repr

structure AudioExtractionResult where
  audioPath : String
  originalVideoPath : Option String := none
deriving DecidableEq, Repr

structure TranscriptionResult where
  text : String
  language : String
  segments : List Segment
deriving DecidableEq, Repr

structure TranslationResult where
  originalText : String
  translatedText : String
  sourceLanguage : String
  targetLanguage : String
deriving DecidableEq, Repr

structure SummaryResult where
  summary : String
  keyPoints : List String
  language : String
deriving DecidableEq, Repr

structure SubtitleGenerationResult where
  srtPath : String
  vttPath : String
  srtContent : String
  vttContent : String
deriving DecidableEq, Repr

structure GenerateOutputVideoInput where
  videoPath : String
  srtPath : String
  hardcode : Bool
  workflowId : Option String
deriving DecidableEq, Repr

structure GenerateOutputVideoResult where
  outputPath : String
  format : String
  subtitleType : String
deriving DecidableEq, Repr

structure SaveArtifactsInput where
  workflowId : String
  transcription : String
  translation : String
  summary : String
  keyPoints : List String
  srtContent : String
  vttContent : String
  sourceLanguage : String
  targetLanguage : String
  outputVideoPath : Option String
deriving DecidableEq, Repr

structure SaveArtifactsResult where
  artifactsDir : String
  files : List String
deriving DecidableEq, Repr

/-! ### Subtitle timestamp formatting (`translation.activities.ts` lines 86-102) -/

inductive SubtitleFormat | srt | vtt
deriving DecidableEq, Repr

/-- Components computed by `formatTime`:
`hours = Math.floor(seconds / 3600)`, `minutes = Math.floor((seconds % 3600) / 60)`,
`secs = Math.floor(seconds % 60)`, `ms = Math.floor((seconds % 1) * 1000)`. -/
def ftHours (seconds : ℚ) : ℤ := ⌊seconds / 3600⌋

def ftMinutes (seconds : ℚ) : ℤ := ⌊jsRem seconds 3600 / 60⌋

def ftSecs (seconds : ℚ) : ℤ := ⌊jsRem seconds 60⌋

def ftMs (seconds : ℚ) : ℤ := ⌊jsRem seconds 1 * 1000⌋

/-- `formatTime` from `translation.activities.ts`: `HH:MM:SS.mmm` for VTT and
`HH:MM:SS,mmm` (comma) for SRT. -/
def formatTime (seconds : ℚ) (format : SubtitleFormat) : String :=
  pad (ftHours seconds) ++ ":" ++ pad (ftMinutes seconds) ++ ":" ++
    pad (ftSecs seconds) ++
    (match format with | .vtt => "." | .srt => ",") ++
    pad (ftMs seconds) 3

/-- One SRT cue as appended by the `translatedSegments.forEach` loop
(`index + 1`, the timing line, the text, blank line). -/
def srtCue (index : ℕ) (seg : Segment) : String :=
  toString (index + 1) ++ "\n" ++
    formatTime seg.start .srt ++ " --> " ++ formatTime seg.stop .srt ++ "\n" ++
    seg.text ++ "\n\n"

/-- One VTT cue as appended by the second `forEach` loop. -/
def vttCue (seg : Segment) : String :=
  formatTime seg.start .vtt ++ " --> " ++ formatTime seg.stop .vtt ++ "\n" ++
    seg.text ++ "\n\n"

/-- SRT content built by `generateSubtitles` from the (aligned) segment list:
`let srtContent = ""` followed by `translatedSegments.forEach(...)`. -/
def srtContentOf (translatedSegments : List Segment) : String :=
  (translatedSegments.enum).foldl (fun acc p => acc ++ srtCue p.1 p.2) ""

/-- VTT content built by `generateSubtitles` from the same segment list:
`let vttContent = "WEBVTT\n\n"` followed by `translatedSegments.forEach(...)`. -/
def vttContentOf (translatedSegments : List Segment) : String :=
  translatedSegments.foldl (fun acc seg => acc ++ vttCue seg) "WEBVTT\n\n"

/-- A string of decimal digit characters only. -/
def DigitsOnly (s : String) : Prop := ∀ c ∈ s.data, c.isDigit = true

instance : DecidablePred DigitsOnly := fun s =>
  inferInstanceAs (Decidable (∀ c ∈ s.data, c.isDigit = true))

/-- The shape `HH:MM:SS<sep>mmm`: a (zero-padded, ≥ 2 digit) hour field, two
two-digit fields, the separator, and a three-digit millisecond field. -/
def IsTimestamp (sep : String) (s : String) : Prop :=
  ∃ hh mm ss ms : String,
    s = hh ++ ":" ++ mm ++ ":" ++ ss ++ sep ++ ms ∧
    2 ≤ hh.length ∧ DigitsOnly hh ∧
    mm.length = 2 ∧ DigitsOnly mm ∧
    ss.length = 2 ∧ DigitsOnly ss ∧
    ms.length = 3 ∧ DigitsOnly ms

/-- The two renderings of one cue boundary share their hour, minute, second
and millisecond components and differ only in the separator (comma for SRT,
dot for VTT). -/
def SameBoundary (srtTs vttTs : String) : Prop :=
  ∃ hh mm ss ms : String,
    srtTs = hh ++ ":" ++ mm ++ ":" ++ ss ++ "," ++ ms ∧
    vttTs = hh ++ ":" ++ mm ++ ":" ++ ss ++ "." ++ ms ∧
    2 ≤ hh.length ∧ DigitsOnly hh ∧
    mm.length = 2 ∧ DigitsOnly mm ∧
    ss.length = 2 ∧ DigitsOnly ss ∧
    ms.length = 3 ∧ DigitsOnly ms

/-! ### Workflow-id generation (`temporal-client.module.ts` lines 338-403) -/

/-- The first `.replace(/\.[^/.]+$/, "")`: strip a trailing `.ext` whose
extension part is nonempty and contains neither `/` nor `.`. -/
def stripExtension (s : String) : String :=
  if (s.data.reverse.takeWhile (fun c => !(c == '/' || c == '.'))).length = 0 then s
  else
    match s.data.reverse.drop
        (s.data.reverse.takeWhile (fun c => !(c == '/' || c == '.'))).length with
    | '.' :: rest => String.mk rest.reverse
    | _ => s

/-- The second `.replace(/[^a-zA-Z0-9-_]/g, "-")`: every character outside
`[a-zA-Z0-9-_]` becomes `-`. -/
def slugChar (c : Char) : Char :=
  if c.isAlphanum || c == '-' || c == '_' then c else '-'

/-- `extractBaseName`'s per-filename transformation:
`.replace(/\.[^/.]+$/, "").replace(/[^a-zA-Z0-9-_]/g, "-").toLowerCase()`. -/
def baseNameSlug (fileName : String) : String :=
  String.mk (((stripExtension fileName).data.map slugChar).map Char.toLower)

/-- `extractBaseName(videoUrl, fileName?)` from `temporal-client.module.ts`.
When no `fileName` is given the source takes the last `/`-separated component
of the URL's pathname (or of the raw string when URL parsing fails), with
`"video"` as fallback for an empty component; both branches reduce to the
split-on-`/` form modelled here. -/
def extractBaseName (videoUrl : String) (fileName : Option String) : String :=
  match fileName with
  | some f => baseNameSlug f
  | none =>
    let filename := lastComponentAfterSlash videoUrl
    baseNameSlug (if filename = "" then "video" else filename)

/-- Collapse every maximal run of whitespace into a single `-`
(the `/\s+/g → "-"` replacement); `inRun` records whether the previous
character was whitespace. -/
def collapseWsGo (inRun : Bool) : List Char → List Char
  | [] => []
  | c :: rest =>
    if c.isWhitespace then
      if inRun then collapseWsGo true rest
      else '-' :: collapseWsGo true rest
    else c :: collapseWsGo false rest

/-- `input.targetLanguage.toLowerCase().replace(/\s+/g, "-")`. -/
def targetLangSlug (targetLanguage : String) : String :=
  String.mk (collapseWsGo false (targetLanguage.data.map Char.toLower))

/-- The workflow id built by `startTranslationWorkflow`:
``const workflowId = `${fileBaseName}-${targetLang}-${uuidv4()}` ``, with the
random `uuidv4()` passed in as `uuid`. -/
def startWorkflowId (videoUrl : String) (fileName : Option String)
    (targetLanguage : String) (uuid : String) : String :=
  extractBaseName videoUrl fileName ++ "-" ++ targetLangSlug targetLanguage ++ "-" ++ uuid

/-! ### Workflow data model (`translation.workflow.ts`) -/

structure OutputOptions where
  hardcodeSubtitles : Option Bool := none
  generateVideo : Option Bool := none
deriving DecidableEq, Repr

structure TranslationWorkflowInput where
  videoUrl : String
  targetLanguage : String
  sourceLanguage : Option String := none
  workflowId : Option String := none
  outputOptions : Option OutputOptions := none
deriving DecidableEq, Repr

structure TranslationWorkflowResult where
  success : Bool
  transcription : String
  translation : String
  summary : String
  keyPoints : List String
  subtitlesPath : String
  outputVideoPath : Option String
  artifactsDir : Option String
  processingTimeMs : ℕ
deriving DecidableEq, Repr

inductive WfStatus | running | completed | failed
deriving DecidableEq, Repr

structure WorkflowProgress where
  currentStep : ℕ
  totalSteps : ℕ
  stepName : String
  percentComplete : ℕ
  status : WfStatus
  error : Option String := none
deriving DecidableEq, Repr

/-- JavaScript truthiness of an optional string (`undefined` and `""` are
falsy), used for `input.sourceLanguage || "en"`,
`input.workflowId || ...` and `if (generateVideo && originalVideoPath)`. -/
def optStrTruthy : Option String → Bool
  | none => false
  | some s => !s.isEmpty

/-- JavaScript `a || b` on an optional string. -/
def orString (a : Option String) (b : String) : String :=
  match a with
  | some s => if s.isEmpty then b else s
  | none => b

/-- `input.outputOptions?.generateVideo ?? true`. -/
def wfGenerateVideo (input : TranslationWorkflowInput) : Bool :=
  ((input.outputOptions.bind OutputOptions.generateVideo).getD true)

/-- `input.outputOptions?.hardcodeSubtitles ?? false`. -/
def wfHardcodeSubtitles (input : TranslationWorkflowInput) : Bool :=
  ((input.outputOptions.bind OutputOptions.hardcodeSubtitles).getD false)

/-- `const totalSteps = generateVideo ? 7 : 6`. -/
def wfTotalSteps (input : TranslationWorkflowInput) : ℕ :=
  if wfGenerateVideo input then 7 else 6

/-- One activity invocation as issued by the workflow, with its arguments. -/
inductive ActivityCall
  | extractAudio (videoUrl : String)
  | transcribeAudio (audioPath : String) (sourceLanguage : String)
  | translateText (text sourceLanguage targetLanguage : String)
  | generateSummary (translatedText targetLanguage : String)
  | generateSubtitles (segments : List Segment) (translatedText targetLanguage : String)
  | generateOutputVideo (input : GenerateOutputVideoInput)
  | saveWorkflowArtifacts (input : SaveArtifactsInput)
  | cleanupTempFiles
deriving DecidableEq, Repr

/-- The successful result of an activity, as recorded in the Temporal event
history (the workflow's durable checkpoints). -/
inductive AValue
  | audio (r : AudioExtractionResult)
  | transcription (r : TranscriptionResult)
  | translation (r : TranslationResult)
  | summary (r : SummaryResult)
  | subtitles (r : SubtitleGenerationResult)
  | video (r : GenerateOutputVideoResult)
  | artifacts (r : SaveArtifactsResult)
  | unitDone
deriving DecidableEq, Repr

/-- Behaviour of the worker-side activity implementations, as seen by the
workflow: each activity either returns a value or throws. -/
structure Activities where
  extractAudio : String → Except JsError AudioExtractionResult
  transcribeAudio : String → String → Except JsError TranscriptionResult
  translateText : String → String → String → Except JsError TranslationResult
  generateSummary : String → String → Except JsError SummaryResult
  generateSubtitles : List Segment → String → String → Except JsError SubtitleGenerationResult
  generateOutputVideo : GenerateOutputVideoInput → Except JsError GenerateOutputVideoResult
  saveWorkflowArtifacts : SaveArtifactsInput → Except JsError SaveArtifactsResult
  cleanupTempFilesActivity : Except JsError Unit

/-- Dispatch one activity call to the worker implementations. -/
def performActivity (acts : Activities) : ActivityCall → Except JsError AValue
  | .extractAudio url => (acts.extractAudio url).map .audio
  | .transcribeAudio p l => (acts.transcribeAudio p l).map .transcription
  | .translateText t s l => (acts.translateText t s l).map .translation
  | .generateSummary t l => (acts.generateSummary t l).map .summary
  | .generateSubtitles segs t l => (acts.generateSubtitles segs t l).map .subtitles
  | .generateOutputVideo i => (acts.generateOutputVideo i).map .video
  | .saveWorkflowArtifacts i => (acts.saveWorkflowArtifacts i).map .artifacts
  | .cleanupTempFiles => acts.cleanupTempFilesActivity.map (fun _ => .unitDone)

/-- Deterministic workflow code, deep-embedded as a straight-line program:
update the progress snapshot, await an activity, or finish (normally or by
rethrowing an activity failure). -/
inductive Prog (α : Type)
  | pure (a : α)
  | fail (e : JsError)
  | setProgress (p : WorkflowProgress) (k : Prog α)
  | act (c : ActivityCall) (k : AValue → Prog α)

/-- Result of executing workflow code under Temporal's semantics:
`invoked` are the activity calls actually dispatched to a worker (newly
invoked, not replayed), `completed` the successful activity results recorded
to history during this execution (replayed ones included), `progressLog` the
successive values assigned to the `progress` variable, in order, and `result`
the workflow outcome. -/
structure RunOut (α : Type) where
  invoked : List ActivityCall
  completed : List AValue
  progressLog : List WorkflowProgress
  result : Except JsError α

/-- Execute workflow code against a recorded history (Temporal deterministic
replay): while history entries remain, an awaited activity consumes the next
recorded result without being re-invoked; afterwards activities are invoked
for real and an activity failure (after the proxy's retry budget, which is
inside `Activities`) aborts execution with that error. -/
def runProg (acts : Activities) : Prog α → List AValue → RunOut α
  | .pure a, _ => { invoked := [], completed := [], progressLog := [], result := .ok a }
  | .fail e, _ => { invoked := [], completed := [], progressLog := [], result := .error e }
  | .setProgress p k, h =>
    let r := runProg acts k h
    { r with progressLog := p :: r.progressLog }
  | .act c k, [] =>
    match performActivity acts c with
    | .error e =>
      { invoked := [c], completed := [], progressLog := [], result := .error e }
    | .ok v =>
      let r := runProg acts (k v) []
      { r with invoked := c :: r.invoked, completed := v :: r.completed }
  | .act _ k, v :: h =>
    let r := runProg acts (k v) h
    { r with completed := v :: r.completed }

/-- The progress snapshot written before saving artifacts (line 129). -/
def wfSaveSnap (input : TranslationWorkflowInput) : WorkflowProgress :=
  { currentStep := if wfGenerateVideo input then 7 else 6
    totalSteps := wfTotalSteps input
    stepName := "Saving workflow artifacts"
    percentComplete := 95, status := .running, error := none }

/-- The final completed snapshot (lines 158-164). -/
def wfDoneSnap (input : TranslationWorkflowInput) : WorkflowProgress :=
  { currentStep := wfTotalSteps input, totalSteps := wfTotalSteps input
    stepName := "Completed", percentComplete := 100
    status := .completed, error := none }

/-- The argument built for `saveWorkflowArtifacts` (lines 137-148). -/
def mkSaveInput (input : TranslationWorkflowInput) (nowMs : ℕ)
    (transcription : TranscriptionResult) (translation : TranslationResult)
    (summary : SummaryResult) (subtitlesResult : SubtitleGenerationResult)
    (outputVideoPath : Option String) : SaveArtifactsInput :=
  { workflowId := orString input.workflowId ("translation-" ++ toString nowMs)
    transcription := transcription.text
    translation := translation.translatedText
    summary := summary.summary
    keyPoints := summary.keyPoints
    srtContent := subtitlesResult.srtContent
    vttContent := subtitlesResult.vttContent
    sourceLanguage := transcription.language
    targetLanguage := input.targetLanguage
    outputVideoPath := outputVideoPath }

/-- The value returned by the workflow (lines 168-178). -/
def mkWfResult (transcription : TranscriptionResult) (translation : TranslationResult)
    (summary : SummaryResult) (subtitlesResult : SubtitleGenerationResult)
    (outputVideoPath : Option String) (artifactResult : SaveArtifactsResult) :
    TranslationWorkflowResult :=
  { success := true
    transcription := transcription.text
    translation := translation.translatedText
    summary := summary.summary
    keyPoints := summary.keyPoints
    subtitlesPath := subtitlesResult.srtPath
    outputVideoPath := outputVideoPath
    artifactsDir := some artifactResult.artifactsDir
    -- Date.now() wall-clock duration is not modelled
    processingTimeMs := 0 }

/-- Tail of the workflow after the optional video step: save artifacts,
cleanup, final progress, return (lines 128-178 of `translation.workflow.ts`). -/
def wfSaveAndFinish (input : TranslationWorkflowInput) (nowMs : ℕ)
    (transcription : TranscriptionResult) (translation : TranslationResult)
    (summary : SummaryResult) (subtitlesResult : SubtitleGenerationResult)
    (outputVideoPath : Option String) : Prog TranslationWorkflowResult :=
  .setProgress (wfSaveSnap input)
  (.act (.saveWorkflowArtifacts
    (mkSaveInput input nowMs transcription translation summary subtitlesResult
      outputVideoPath)) fun v =>
    match v with
    | .artifacts artifactResult =>
      .act .cleanupTempFiles fun v =>
        match v with
        | .unitDone =>
          .setProgress (wfDoneSnap input)
          (.pure (mkWfResult transcription translation summary subtitlesResult
            outputVideoPath artifactResult))
        | _ => .fail nondeterminismError
    | _ => .fail nondeterminismError)

/-- Step snapshots 1-5 written by the workflow body (lines 86-108). -/
def wfStep1Snap (input : TranslationWorkflowInput) : WorkflowProgress :=
  { currentStep := 1, totalSteps := wfTotalSteps input
    stepName := "Extracting audio from video"
    percentComplete := 5, status := .running, error := none }

def wfStep2Snap (input : TranslationWorkflowInput) : WorkflowProgress :=
  { currentStep := 2, totalSteps := wfTotalSteps input
    stepName := "Transcribing audio (Whisper)"
    percentComplete := 20, status := .running, error := none }

def wfStep3Snap (input : TranslationWorkflowInput) : WorkflowProgress :=
  { currentStep := 3, totalSteps := wfTotalSteps input
    stepName := "Translating text (GPT-4)"
    percentComplete := 40, status := .running, error := none }

def wfStep4Snap (input : TranslationWorkflowInput) : WorkflowProgress :=
  { currentStep := 4, totalSteps := wfTotalSteps input
    stepName := "Generating summary"
    percentComplete := 55, status := .running, error := none }

def wfStep5Snap (input : TranslationWorkflowInput) : WorkflowProgress :=
  { currentStep := 5, totalSteps := wfTotalSteps input
    stepName := "Generating subtitles"
    percentComplete := 70, status := .running, error := none }

/-- The progress snapshot written before generating the output video (line 117). -/
def wfVideoSnap (input : TranslationWorkflowInput) : WorkflowProgress :=
  { currentStep := 6, totalSteps := wfTotalSteps input
    stepName := "Generating output video with subtitles"
    percentComplete := 85, status := .running, error := none }

/-- The argument built for `generateOutputVideo` (lines 119-124). -/
def mkVideoInput (input : TranslationWorkflowInput) (ovp : String)
    (subtitlesResult : SubtitleGenerationResult) : GenerateOutputVideoInput :=
  { videoPath := ovp
    srtPath := subtitlesResult.srtPath
    hardcode := wfHardcodeSubtitles input
    workflowId := input.workflowId }

/-- Step 6 (optional output video, lines 112-126): invoked only when
`generateVideo && originalVideoPath` is truthy. -/
def wfVideoStep (input : TranslationWorkflowInput) (nowMs : ℕ)
    (originalVideoPath : Option String)
    (transcription : TranscriptionResult) (translation : TranslationResult)
    (summary : SummaryResult) (subtitlesResult : SubtitleGenerationResult) :
    Prog TranslationWorkflowResult :=
  if wfGenerateVideo input && optStrTruthy originalVideoPath then
    match originalVideoPath with
    | some ovp =>
      .setProgress (wfVideoSnap input)
      (.act (.generateOutputVideo (mkVideoInput input ovp subtitlesResult)) fun v =>
        match v with
        | .video videoResult =>
          wfSaveAndFinish input nowMs transcription translation summary
            subtitlesResult (some videoResult.outputPath)
        | _ => .fail nondeterminismError)
    | none => .fail nondeterminismError
  else
    wfSaveAndFinish input nowMs transcription translation summary
      subtitlesResult none

/-- Steps 1-5 of `translationWorkflow` (lines 85-110), continuing into the
optional video step and the finishing tail. -/
def wfBody (input : TranslationWorkflowInput) (nowMs : ℕ) :
    Prog TranslationWorkflowResult :=
  .setProgress (wfStep1Snap input)
  (.act (.extractAudio input.videoUrl) fun v =>
    match v with
    | .audio audioResult =>
      .setProgress (wfStep2Snap input)
      (.act (.transcribeAudio audioResult.audioPath
              (orString input.sourceLanguage "en")) fun v =>
        match v with
        | .transcription transcription =>
          .setProgress (wfStep3Snap input)
          (.act (.translateText transcription.text transcription.language
                  input.targetLanguage) fun v =>
            match v with
            | .translation translation =>
              .setProgress (wfStep4Snap input)
              (.act (.generateSummary translation.translatedText
                      input.targetLanguage) fun v =>
                match v with
                | .summary summary =>
                  .setProgress (wfStep5Snap input)
                  (.act (.generateSubtitles transcription.segments
                          translation.translatedText input.targetLanguage) fun v =>
                    match v with
                    | .subtitles subtitlesResult =>
                      wfVideoStep input nowMs audioResult.originalVideoPath
                        transcription translation summary subtitlesResult
                    | _ => .fail nondeterminismError)
                | _ => .fail nondeterminismError)
            | _ => .fail nondeterminismError)
        | _ => .fail nondeterminismError)
    | _ => .fail nondeterminismError)

/-- The `progress` variable's initial value (lines 70-76). -/
def initialProgress (input : TranslationWorkflowInput) : WorkflowProgress :=
  { currentStep := 0, totalSteps := wfTotalSteps input
    stepName := "Starting", percentComplete := 0
    status := .running, error := none }

/-- `translationWorkflow(input)` executed by Temporal against the recorded
`history` (empty on a fresh run): run the body; the surrounding
`try/catch` appends, on failure, a copy of the last progress snapshot marked
`failed` with the error message, and rethrows. -/
def translationWorkflow (acts : Activities) (input : TranslationWorkflowInput)
    (nowMs : ℕ) (history : List AValue) : RunOut TranslationWorkflowResult :=
  let r := runProg acts (wfBody input nowMs) history
  let log := initialProgress input :: r.progressLog
  match r.result with
  | .ok res => { r with progressLog := log, result := .ok res }
  | .error e =>
    { r with
      progressLog := log ++
        [{ r.progressLog.getLastD (initialProgress input) with
            status := .failed, error := some e.message }]
      result := .error e }

/-! ### Activity-side models needed by individual claims -/

/-- The `catch` fallback of `extractAudio` (`translation.activities.ts` lines
136-147): given the outcome of `processMediaInput(videoUrl)`, on failure fall
back to the original input when it is an audio file or not a recognized video
file, otherwise rethrow. -/
def extractAudioFallback (videoUrl : String)
    (processResult : Except JsError AudioExtractionResult) :
    Except JsError AudioExtractionResult :=
  match processResult with
  | .ok r => .ok r
  | .error e =>
    if isAudioFile videoUrl || !isVideoFile videoUrl then
      .ok { audioPath := videoUrl, originalVideoPath := none }
    else
      .error e

/-- `cleanupTempFilesActivity` (lines 459-469): the underlying
`cleanupTempFiles` outcome is swallowed by the activity's `try/catch`
(" Don't throw - cleanup failure shouldn't fail the workflow "). -/
def cleanupTempFilesActivityModel (underlying : Except JsError Unit) :
    Except JsError Unit :=
  match underlying with
  | .ok _ => .ok ()
  | .error _ => .ok ()   -- logged, not rethrown

/-- Workflow status names surfaced by `handle.describe()` that
`queryWorkflowProgress` branches on, together with the query outcome when the
workflow is still running. -/
inductive QueryOutcome
  | statusCompleted
  | statusTimedOut
  | statusCancelled
  | answered (snapshot : WorkflowProgress)
  | queryFailed (message : String)
deriving DecidableEq, Repr

/-- `queryWorkflowProgress` from `temporal-client.module.ts` (lines 429-488):
fixed snapshots for terminal `describe()` statuses, the handler's snapshot when
the query answers, and a synthetic `running` snapshot when the query throws. -/
def queryWorkflowProgress : QueryOutcome → WorkflowProgress
  | .statusCompleted =>
    { currentStep := 7, totalSteps := 7, stepName := "Completed"
      percentComplete := 100, status := .completed, error := none }
  | .statusTimedOut =>
    { currentStep := 0, totalSteps := 7, stepName := "TIMED_OUT"
      percentComplete := 0, status := .failed, error := some "Workflow timed_out" }
  | .statusCancelled =>
    { currentStep := 0, totalSteps := 7, stepName := "CANCELLED"
      percentComplete := 0, status := .failed, error := some "Workflow cancelled" }
  | .answered snapshot => snapshot
  | .queryFailed msg =>
    { currentStep := 0, totalSteps := 7, stepName := "Unknown"
      percentComplete := 0, status := .running, error := some msg }

/-! ### Invariants of the workflow program

`ProgressWf lo p`: every progress snapshot the program can write is `running`
with percentage in `[lo, 95]`, except a final `completed`/`100` snapshot that
is immediately followed by the workflow's return.  `CallsAsc n p`: the stage
kinds of the activity calls the program can issue are at least `n` and
strictly increase along execution. -/

inductive ProgressWf {α : Type} : ℕ → Prog α → Prop
  | pure (lo : ℕ) (a : α) : ProgressWf lo (.pure a)
  | fail (lo : ℕ) (e : JsError) : ProgressWf lo (.fail e)
  | step (lo : ℕ) (p : WorkflowProgress) (k : Prog α)
      (h1 : lo ≤ p.percentComplete) (h2 : p.percentComplete ≤ 95)
      (h3 : p.status = .running) (hk : ProgressWf p.percentComplete k) :
      ProgressWf lo (.setProgress p k)
  | final (lo : ℕ) (p : WorkflowProgress) (a : α)
      (h1 : lo ≤ p.percentComplete) (h2 : p.status = .completed)
      (h3 : p.percentComplete = 100) :
      ProgressWf lo (.setProgress p (.pure a))
  | act (lo : ℕ) (c : ActivityCall) (k : AValue → Prog α)
      (hk : ∀ v, ProgressWf lo (k v)) : ProgressWf lo (.act c k)

/-- Ordinal of the pipeline stage performing a call (the fixed stage order of
the workflow). -/
def callKind : ActivityCall → ℕ
  | .extractAudio _ => 0
  | .transcribeAudio _ _ => 1
  | .translateText _ _ _ => 2
  | .generateSummary _ _ => 3
  | .generateSubtitles _ _ _ => 4
  | .generateOutputVideo _ => 5
  | .saveWorkflowArtifacts _ => 6
  | .cleanupTempFiles => 7

inductive CallsAsc {α : Type} : ℕ → Prog α → Prop
  | pure (n : ℕ) (a : α) : CallsAsc n (.pure a)
  | fail (n : ℕ) (e : JsError) : CallsAsc n (.fail e)
  | setProgress (n : ℕ) (p : WorkflowProgress) (k : Prog α)
      (hk : CallsAsc n k) : CallsAsc n (.setProgress p k)
  | act (n : ℕ) (c : ActivityCall) (k : AValue → Prog α)
      (hc : n ≤ callKind c) (hk : ∀ v, CallsAsc (callKind c + 1) (k v)) :
      CallsAsc n (.act c k)

/-! ### Concrete inputs used by witnesses and counterexamples -/

def connResetError : JsError :=
  { message := "read ECONNRESET", code := some "ECONNRESET", status := none }

def badRequestError : JsError :=
  { message := "400 Bad Request", code := none, status := some 400 }

def cleanupError : JsError := { message := "EACCES: permission denied" }

/-- An external Whisper upload that is reset on every single call. -/
def extConnReset : ℕ → Except JsError TranscriptionResult :=
  fun _ => .error connResetError

/-- An external translation call rejected with HTTP 400 on every call. -/
def ext400 : ℕ → Except JsError TranslationResult :=
  fun _ => .error badRequestError

def sampleSegments : List Segment :=
  [{ start := 0, stop := 2, text := "Hello" },
   { start := 2, stop := 5, text := "world" }]

def sampleInput : TranslationWorkflowInput :=
  { videoUrl := "/data/talk.mp4", targetLanguage := "Spanish"
    sourceLanguage := some "en", workflowId := some "talk-spanish-u1"
    outputOptions := none }

def sampleTranscription : TranscriptionResult :=
  { text := "hello world", language := "english", segments := sampleSegments }

def sampleTranslation : TranslationResult :=
  { originalText := "hello world", translatedText := "hola mundo"
    sourceLanguage := "english", targetLanguage := "Spanish" }

def sampleSummary : SummaryResult :=
  { summary := "resumen", keyPoints := ["punto 1"], language := "Spanish" }

def sampleSubtitles : SubtitleGenerationResult :=
  { srtPath := "/tmp/video-translator/subtitles-1.srt"
    vttPath := "/tmp/video-translator/subtitles-1.vtt"
    srtContent := srtContentOf sampleSegments
    vttContent := vttContentOf sampleSegments }

def sampleArtifacts : SaveArtifactsResult :=
  { artifactsDir := "/output/video-translator/talk-spanish-u1", files := [] }

def sampleAudio : AudioExtractionResult :=
  { audioPath := "/tmp/video-translator/audio-1.mp3"
    originalVideoPath := some "/tmp/video-translator/download-1.mp4" }

def sampleVideoOut : GenerateOutputVideoResult :=
  { outputPath := "/output/video-translator/talk-spanish-u1/translated_video.mp4"
    format := "mp4", subtitleType := "softcoded" }

/-- A worker on which every activity succeeds deterministically. -/
def sampleActs : Activities :=
  { extractAudio := fun _ => .ok sampleAudio
    transcribeAudio := fun _ _ => .ok sampleTranscription
    translateText := fun _ _ _ => .ok sampleTranslation
    generateSummary := fun _ _ => .ok sampleSummary
    generateSubtitles := fun _ _ _ => .ok sampleSubtitles
    generateOutputVideo := fun _ => .ok sampleVideoOut
    saveWorkflowArtifacts := fun _ => .ok sampleArtifacts
    cleanupTempFilesActivity := .ok () }

/-- Same worker, but the transcription stage fails terminally (its retry
budget exhausted by connection resets). -/
def failingTranscribeActs : Activities :=
  { sampleActs with transcribeAudio := fun _ _ => .error connResetError }

/-- An extraction result with no original video (pure audio input). -/
def audioOnlyResult : AudioExtractionResult :=
  { audioPath := "/data/podcast.mp3", originalVideoPath := none }

/-- Same worker, but audio extraction finds no original video (pure audio
input): `originalVideoPath` is absent. -/
def noVideoActs : Activities :=
  { sampleActs with extractAudio := fun _ => Except.ok audioOnlyResult }

/-- Same worker, with the underlying temp-file removal failing; the cleanup
activity swallows the failure (its own `try/catch`). -/
def cleanupFailActs : Activities :=
  { sampleActs with
    cleanupTempFilesActivity := cleanupTempFilesActivityModel (.error cleanupError) }

/-! ## Helper lemmas -/

/-- Under a permanently transient failure, the retry loop sleeps exactly
`delayMs * 2 ^ i` before each retry, `i` being the 0-based attempt index. -/
theorem retryGo_delays_const {α : Type} (fn : ℕ → Except JsError α) (e : JsError)
    (hfn : ∀ i, fn i = .error e) (hbr : isClientErrorBreak e = false) (d : ℕ) :
    ∀ rem i, (retryGo fn d rem i).delays =
      (List.range' i (rem - 1)).map (fun j => d * 2 ^ j) := by
  intro rem
  induction rem with
  | zero => intro i; simp [retryGo]
  | succ r ih =>
    intro i
    cases r with
    | zero => simp [retryGo, hfn i]
    | succ r2 =>
      have hstep : retryGo fn d (r2 + 1 + 1) i =
          { calls := 1 + (retryGo fn d (r2 + 1) (i + 1)).calls
            delays := d * 2 ^ i :: (retryGo fn d (r2 + 1) (i + 1)).delays
            result := (retryGo fn d (r2 + 1) (i + 1)).result } := by
        conv_lhs => rw [retryGo]
        rw [hfn i]
        simp [hbr]
      have harith : (r2 + 1 + 1) - 1 = ((r2 + 1) - 1) + 1 := by omega
      rw [hstep, harith, List.range'_succ, List.map_cons, ih (i + 1)]

/-- Under a permanently transient failure, the loop invokes `fn` exactly
`attempts` times. -/
theorem retryGo_calls_const {α : Type} (fn : ℕ → Except JsError α) (e : JsError)
    (hfn : ∀ i, fn i = .error e) (hbr : isClientErrorBreak e = false) (d : ℕ) :
    ∀ rem i, (retryGo fn d rem i).calls = rem := by
  intro rem
  induction rem with
  | zero => intro i; simp [retryGo]
  | succ r ih =>
    intro i
    cases r with
    | zero => simp [retryGo, hfn i]
    | succ r2 =>
      have hstep : retryGo fn d (r2 + 1 + 1) i =
          { calls := 1 + (retryGo fn d (r2 + 1) (i + 1)).calls
            delays := d * 2 ^ i :: (retryGo fn d (r2 + 1) (i + 1)).delays
            result := (retryGo fn d (r2 + 1) (i + 1)).result } := by
        conv_lhs => rw [retryGo]
        rw [hfn i]
        simp [hbr]
      rw [hstep, ih (i + 1)]
      show 1 + (r2 + 1) = r2 + 1 + 1
      omega

/-- Packaging of the two previous lemmas for `retryWithBackoff` itself. -/
theorem retryWithBackoff_const_error {α : Type} (fn : ℕ → Except JsError α)
    (e : JsError) (hfn : ∀ i, fn i = .error e)
    (hbr : isClientErrorBreak e = false) (attempts d : ℕ) :
    (retryWithBackoff fn attempts d).delays =
      (List.range (attempts - 1)).map (fun j => d * 2 ^ j) ∧
    (retryWithBackoff fn attempts d).calls = attempts := by
  unfold retryWithBackoff
  rw [retryGo_delays_const fn e hfn hbr, retryGo_calls_const fn e hfn hbr,
    List.range_eq_range']
  exact ⟨rfl, rfl⟩

/-! ## Claim C4 -/

/-- C4: the claim that a permanent 4xx error leads to exactly one invocation
is honoured by the manual wrapper (`retryWithBackoff` stops after a single
call, with no backoff sleeps), but the workflow's activity retry policy
(`maximumAttempts: 3`, `translation.workflow.ts` line 8) re-invokes the failed
activity, so the stage's external operation runs 3 times, contradicting the
claim (and `NETWORK_RESILIENCE.md`, which prescribes `maximumAttempts: 1` with
manual-only retries). -/
theorem c4_permanent_error_retried_by_temporal :
    (retryWithBackoff ext400 3 1000).calls = 1 ∧
    (retryWithBackoff ext400 3 1000).delays = [] ∧
    (retryWithBackoff ext400 3 1000).result = .error badRequestError ∧
    (temporalPlainStage 3 ext400).1 = 3 ∧
    (temporalPlainStage 3 ext400).2 = .error badRequestError ∧
    (temporalPlainStage 1 ext400).1 = 1 := by
  refine ⟨rfl, rfl, rfl, rfl, rfl, rfl⟩

/-! ## Claim C3 -/

/-- C3: a stage with `maxAttempts = 3` that fails transiently on every attempt
does end in a terminal failed run, but the external operation is not invoked
exactly 3 times for the transcription stage: the manual wrapper makes 3 calls
per activity attempt and the activity retry policy (`maximumAttempts: 3`) runs
3 activity attempts, so the Whisper upload is attempted 9 times.  With the
`maximumAttempts: 1` configuration documented in `NETWORK_RESILIENCE.md` it
would be exactly 3. -/
theorem c3_retry_bound_is_nine_for_transcription :
    (retryWithBackoff extConnReset 3 2000).calls = 3 ∧
    (temporalTranscribeStage 3 extConnReset).1 = 9 ∧
    (temporalTranscribeStage 3 extConnReset).2 = .error connResetError ∧
    (temporalTranscribeStage 1 extConnReset).1 = 3 ∧
    (translationWorkflow failingTranscribeActs sampleInput 0 []).result =
      .error connResetError ∧
    ((translationWorkflow failingTranscribeActs sampleInput 0 []).progressLog.getLastD
        (initialProgress sampleInput)).status = .failed := by
  refine ⟨rfl, rfl, rfl, rfl, rfl, rfl⟩

/-! ## Claim C9 -/

/-- C9: when `processMediaInput` throws, `extractAudio` falls back to the
original input (with no `originalVideoPath`) exactly when the input is a
supported audio extension or not a supported video extension, and propagates
the error only for recognized video files. -/
theorem c9_extract_audio_fallback (videoUrl : String) (e : JsError) :
    ((isAudioFile videoUrl = true ∨ isVideoFile videoUrl = false) →
      extractAudioFallback videoUrl (.error e) =
        .ok { audioPath := videoUrl, originalVideoPath := none }) ∧
    (isVideoFile videoUrl = true → isAudioFile videoUrl = false →
      extractAudioFallback videoUrl (.error e) = .error e) ∧
    (∀ r, extractAudioFallback videoUrl (.ok r) = .ok r) ∧
    (∀ e2, extractAudioFallback videoUrl (.error e) = .error e2 →
      isVideoFile videoUrl = true) := by
  unfold extractAudioFallback
  refine ⟨?_, ?_, fun r => rfl, ?_⟩
  · rintro (h | h) <;> simp [h]
  · intro hv ha; simp [hv, ha]
  · intro e2
    by_cases hcond : (isAudioFile videoUrl || !isVideoFile videoUrl) = true
    · simp [hcond]
    · intro _
      rcases Bool.or_eq_false_iff.mp (Bool.not_eq_true _ ▸ hcond) with ⟨-, hv⟩
      simpa using hv

/-- Witness for C9 at a concrete input: an `.mp3` falls back, an `.mp4`
propagates. -/
theorem c9_witness :
    extractAudioFallback "/data/broken.mp3" (.error connResetError) =
      .ok { audioPath := "/data/broken.mp3", originalVideoPath := none } ∧
    extractAudioFallback "/data/broken.mp4" (.error connResetError) =
      .error connResetError := by
  constructor
  · exact (c9_extract_audio_fallback "/data/broken.mp3" connResetError).1
      (Or.inl (by decide))
  · exact (c9_extract_audio_fallback "/data/broken.mp4" connResetError).2.1
      (by decide) (by decide)

/-! ## Claim C7 -/

/-- C7 counterexample: the backoff delays of `retryWithBackoff` are not capped
at any maximum — for every bound `M` some retried transient failure sleeps
longer than `M` (the code computes `delayMs * Math.pow(2, i)` with no cap and
no jitter). -/
theorem c7_counterexample :
    ¬ ∃ M : ℕ, ∀ attempts : ℕ,
      ∀ dl ∈ (retryWithBackoff extConnReset attempts 1000).delays, dl ≤ M := by
  rintro ⟨M, hM⟩
  have hdel := (retryWithBackoff_const_error extConnReset connResetError
    (fun _ => rfl) rfl (M + 2) 1000).1
  have hmem : 1000 * 2 ^ M ∈ (retryWithBackoff extConnReset (M + 2) 1000).delays := by
    rw [hdel]
    exact List.mem_map.mpr ⟨M, by simp, rfl⟩
  have hle := hM (M + 2) _ hmem
  have h1 : M < 2 ^ M := Nat.lt_two_pow M
  have h2 : 2 ^ M ≤ 1000 * 2 ^ M := Nat.le_mul_of_pos_left _ (by omega)
  omega

/-- C7 (amended): the delay before retry attempt `i + 1` of a transiently
failing operation is exactly `delayMs * 2 ^ i` — the exponential-backoff
formula of the claim, but applied without any cap and without jitter. -/
theorem c7_backoff_exact_uncapped (fn : ℕ → Except JsError α) (e : JsError)
    (hfn : ∀ i, fn i = .error e) (hbr : isClientErrorBreak e = false)
    (attempts delayMs : ℕ) :
    (retryWithBackoff fn attempts delayMs).delays =
      (List.range (attempts - 1)).map (fun i => delayMs * 2 ^ i) := by
  exact (retryWithBackoff_const_error fn e hfn hbr attempts delayMs).1

/-- Witness for C7 at a concrete transiently-failing operation: the two sleeps
of a 3-attempt run are 2000 ms and 4000 ms. -/
theorem c7_witness :
    (retryWithBackoff extConnReset 3 2000).delays =
      (List.range 2).map (fun i => 2000 * 2 ^ i) :=
  c7_backoff_exact_uncapped extConnReset connResetError (fun _ => rfl) rfl 3 2000

/-! ## Claim C8 -/

theorem uint32_le_iff {a b : UInt32} : a ≤ b ↔ a.toNat ≤ b.toNat := by
  rw [UInt32.le_def, BitVec.le_def]
  exact Iff.rfl

theorem char_isUpper_iff (c : Char) :
    c.isUpper = true ↔ 65 ≤ c.toNat ∧ c.toNat ≤ 90 := by
  have h65 : (65 : UInt32).toNat = 65 := rfl
  have h90 : (90 : UInt32).toNat = 90 := rfl
  simp only [Char.isUpper, ge_iff_le, Bool.and_eq_true, decide_eq_true_eq,
    uint32_le_iff, h65, h90]
  exact Iff.rfl

theorem char_isLower_iff (c : Char) :
    c.isLower = true ↔ 97 ≤ c.toNat ∧ c.toNat ≤ 122 := by
  have h97 : (97 : UInt32).toNat = 97 := rfl
  have h122 : (122 : UInt32).toNat = 122 := rfl
  simp only [Char.isLower, ge_iff_le, Bool.and_eq_true, decide_eq_true_eq,
    uint32_le_iff, h97, h122]
  exact Iff.rfl

theorem char_toLower_eq (c : Char) :
    Char.toLower c =
      if 65 ≤ c.toNat ∧ c.toNat ≤ 90 then Char.ofNat (c.toNat + 32) else c := rfl

theorem char_ofNat_toNat_valid {n : ℕ} (h : n < 55296) :
    (Char.ofNat n).toNat = n := by
  have hv : n.isValidChar := Or.inl h
  rw [Char.ofNat, dif_pos hv]
  rfl

/-- Characters allowed by the slug regex stay allowed after `toLowerCase`, and
the result is never an upper-case letter. -/
theorem toLower_allowed (c : Char)
    (hc : (c.isAlphanum || c == '-' || c == '_') = true) :
    ((c.toLower.isAlphanum || c.toLower == '-' || c.toLower == '_') = true) ∧
      c.toLower.isUpper = false := by
  by_cases hu : 65 ≤ c.toNat ∧ c.toNat ≤ 90
  · rw [char_toLower_eq, if_pos hu]
    have hval : (Char.ofNat (c.toNat + 32)).toNat = c.toNat + 32 :=
      char_ofNat_toNat_valid (by omega)
    constructor
    · have hl : (Char.ofNat (c.toNat + 32)).isLower = true :=
        (char_isLower_iff _).mpr (by omega)
      simp [Char.isAlphanum, Char.isAlpha, hl]
    · rw [Bool.eq_false_iff]
      intro hU
      have := (char_isUpper_iff _).mp hU
      omega
  · rw [char_toLower_eq, if_neg hu]
    refine ⟨hc, ?_⟩
    rw [Bool.eq_false_iff]
    intro hU
    exact hu ((char_isUpper_iff _).mp hU)

/-- The sanitize-then-lower transformation keeps every character in the
allowed set (lower-case letters, digits, `-`, `_`) with no upper-case letter
surviving. -/
theorem slugChar_lower_props (c : Char) :
    ((Char.toLower (slugChar c)).isAlphanum ||
        Char.toLower (slugChar c) == '-' || Char.toLower (slugChar c) == '_') = true ∧
      (Char.toLower (slugChar c)).isUpper = false := by
  by_cases hc : (c.isAlphanum || c == '-' || c == '_') = true
  · rw [show slugChar c = c from by unfold slugChar; exact if_pos hc]
    exact toLower_allowed c hc
  · rw [show slugChar c = '-' from by unfold slugChar; exact if_neg hc]
    exact ⟨by decide, by decide⟩

/-- `takeWhile` swallows a block on which the predicate holds and stops at the
first failing element. -/
theorem takeWhile_all_append {β : Type} (p : β → Bool) (l₁ : List β)
    (h₁ : ∀ c ∈ l₁, p c = true) (x : β) (hx : p x = false) (l₂ : List β) :
    (l₁ ++ x :: l₂).takeWhile p = l₁ := by
  induction l₁ with
  | nil => simp [List.takeWhile_cons, hx]
  | cons a l ih =>
    have ha : p a = true := h₁ a (by simp)
    simp only [List.cons_append, List.takeWhile_cons, ha, if_true]
    rw [ih (fun c hc => h₁ c (by simp [hc]))]

/-- C8: the workflow id generated by `startTranslationWorkflow` for an upload
with a provided filename is the filename's slug (extension stripped,
characters outside `[a-zA-Z0-9-_]` replaced by `-`, lower-cased), then the
target-language slug, then the random suffix; the trailing `.ext` really is
stripped, and the slug contains only lower-case-or-digit-or-dash-or-underscore
characters. -/
theorem c8_workflow_id_structure (f videoUrl lang uuid : String) :
    startWorkflowId videoUrl (some f) lang uuid =
      baseNameSlug f ++ "-" ++ targetLangSlug lang ++ "-" ++ uuid ∧
    (∀ base ext : String, ext.data ≠ [] →
      (∀ c ∈ ext.data, (!(c == '/' || c == '.')) = true) →
      stripExtension (base ++ "." ++ ext) = base) ∧
    (∀ c ∈ (baseNameSlug f).data,
      ((c.isAlphanum || c == '-' || c == '_') = true ∧ c.isUpper = false)) := by
  refine ⟨rfl, ?_, ?_⟩
  · intro base ext hne hext
    unfold stripExtension
    have hdata : (base ++ "." ++ ext).data = base.data ++ '.' :: ext.data := by
      simp [String.data_append]
    have hrev : (base ++ "." ++ ext).data.reverse =
        ext.data.reverse ++ '.' :: base.data.reverse := by
      rw [hdata]
      simp
    have htw : ((base ++ "." ++ ext).data.reverse.takeWhile
        (fun c => !(c == '/' || c == '.'))) = ext.data.reverse := by
      rw [hrev]
      exact takeWhile_all_append _ _ (fun c hc => hext c (List.mem_reverse.mp hc))
        '.' (by decide) _
    rw [htw, hrev]
    have hlen : ext.data.reverse.length ≠ 0 := by
      intro h
      exact hne (by simpa using List.eq_nil_of_length_eq_zero h)
    rw [if_neg hlen, List.drop_left]
    show String.mk base.data.reverse.reverse = base
    rw [List.reverse_reverse]
  · intro c hc
    have : (baseNameSlug f).data =
        ((stripExtension f).data.map slugChar).map Char.toLower := rfl
    rw [this] at hc
    rcases List.mem_map.mp hc with ⟨c1, hc1, rfl⟩
    rcases List.mem_map.mp hc1 with ⟨c0, hc0, rfl⟩
    exact slugChar_lower_props c0

/-- Witness for C8 at a concrete request: filename `My Movie.mp4`, target
language `Spanish`, random suffix `abc-123`. -/
theorem c8_witness :
    startWorkflowId "/data/x.mp4" (some "My Movie.mp4") "Spanish" "abc-123" =
      baseNameSlug "My Movie.mp4" ++ "-" ++ targetLangSlug "Spanish" ++ "-" ++
        "abc-123" ∧
    stripExtension ("My Movie" ++ "." ++ "mp4") = "My Movie" := by
  constructor
  · exact (c8_workflow_id_structure "My Movie.mp4" "/data/x.mp4" "Spanish"
      "abc-123").1
  · exact (c8_workflow_id_structure "My Movie.mp4" "/data/x.mp4" "Spanish"
      "abc-123").2.1 "My Movie" "mp4" (by decide) (by decide)

/-! ## Workflow lemmas shared by C1, C2, C5 and C10 -/

/-- The wrapper keeps the interpreter's invocation list. -/
theorem tw_invoked (acts : Activities) (input : TranslationWorkflowInput)
    (nowMs : ℕ) (h : List AValue) :
    (translationWorkflow acts input nowMs h).invoked =
      (runProg acts (wfBody input nowMs) h).invoked := by
  unfold translationWorkflow
  cases hr : (runProg acts (wfBody input nowMs) h).result <;> simp [hr]

/-- The wrapper keeps the interpreter's completed-result history. -/
theorem tw_completed (acts : Activities) (input : TranslationWorkflowInput)
    (nowMs : ℕ) (h : List AValue) :
    (translationWorkflow acts input nowMs h).completed =
      (runProg acts (wfBody input nowMs) h).completed := by
  unfold translationWorkflow
  cases hr : (runProg acts (wfBody input nowMs) h).result <;> simp [hr]

/-- The wrapper rethrows the interpreter's outcome unchanged. -/
theorem tw_result (acts : Activities) (input : TranslationWorkflowInput)
    (nowMs : ℕ) (h : List AValue) :
    (translationWorkflow acts input nowMs h).result =
      (runProg acts (wfBody input nowMs) h).result := by
  unfold translationWorkflow
  cases hr : (runProg acts (wfBody input nowMs) h).result <;> simp [hr]

/-- Unfolding lemma: `runProg` on `pure`. -/
theorem runProg_pure {α : Type} (acts : Activities) (a : α) (h : List AValue) :
    runProg acts (.pure a) h =
      { invoked := [], completed := [], progressLog := [], result := .ok a } := rfl

/-- Unfolding lemma: `runProg` on `fail`. -/
theorem runProg_fail {α : Type} (acts : Activities) (e : JsError) (h : List AValue) :
    runProg acts (Prog.fail (α := α) e) h =
      { invoked := [], completed := [], progressLog := [], result := .error e } := rfl

/-- Unfolding lemma: `runProg` on a progress update. -/
theorem runProg_setProgress {α : Type} (acts : Activities) (q : WorkflowProgress)
    (k : Prog α) (h : List AValue) :
    runProg acts (.setProgress q k) h =
      { runProg acts k h with
          progressLog := q :: (runProg acts k h).progressLog } := rfl

/-- Unfolding lemma: an awaited activity with empty history and a failing
invocation. -/
theorem runProg_act_nil_error {α : Type} (acts : Activities) (c : ActivityCall)
    (k : AValue → Prog α) {e : JsError} (hpa : performActivity acts c = .error e) :
    runProg acts (.act c k) [] =
      { invoked := [c], completed := [], progressLog := [], result := .error e } := by
  conv_lhs => rw [runProg]
  rw [hpa]

/-- Unfolding lemma: an awaited activity with empty history and a successful
invocation. -/
theorem runProg_act_nil_ok {α : Type} (acts : Activities) (c : ActivityCall)
    (k : AValue → Prog α) {v : AValue} (hpa : performActivity acts c = .ok v) :
    runProg acts (.act c k) [] =
      { invoked := c :: (runProg acts (k v) []).invoked
        completed := v :: (runProg acts (k v) []).completed
        progressLog := (runProg acts (k v) []).progressLog
        result := (runProg acts (k v) []).result } := by
  conv_lhs => rw [runProg]
  rw [hpa]

/-- Unfolding lemma: an awaited activity consuming a recorded history entry. -/
theorem runProg_act_cons {α : Type} (acts : Activities) (c : ActivityCall)
    (k : AValue → Prog α) (v : AValue) (h : List AValue) :
    runProg acts (.act c k) (v :: h) =
      { invoked := (runProg acts (k v) h).invoked
        completed := v :: (runProg acts (k v) h).completed
        progressLog := (runProg acts (k v) h).progressLog
        result := (runProg acts (k v) h).result } := rfl

/-- Temporal replay: running workflow code against the first `n` recorded
results of a fresh run re-invokes exactly the calls after the `n`-th. -/
theorem runProg_replay {α : Type} (acts : Activities) (p : Prog α) :
    ∀ n, n ≤ (runProg acts p []).completed.length →
      (runProg acts p ((runProg acts p []).completed.take n)).invoked =
        (runProg acts p []).invoked.drop n := by
  induction p with
  | pure a =>
    intro n hn
    rw [runProg_pure] at hn
    simp at hn
    subst hn
    simp [runProg_pure]
  | fail e =>
    intro n hn
    rw [runProg_fail] at hn
    simp at hn
    subst hn
    simp [runProg_fail]
  | setProgress q k ih =>
    intro n hn
    rw [runProg_setProgress] at hn
    simp only [runProg_setProgress]
    exact ih n (by simpa using hn)
  | act c k ih =>
    intro n hn
    rcases hpa : performActivity acts c with e | v
    · rw [runProg_act_nil_error acts c k hpa] at hn
      simp at hn
      subst hn
      simp [runProg_act_nil_error acts c k hpa]
    · rw [runProg_act_nil_ok acts c k hpa] at hn
      cases n with
      | zero => simp
      | succ m =>
        have hm : m ≤ (runProg acts (k v) []).completed.length := by
          simpa using hn
        rw [runProg_act_nil_ok acts c k hpa]
        show (runProg acts (.act c k)
            ((v :: (runProg acts (k v) []).completed).take (m + 1))).invoked = _
        rw [List.take_succ_cons, runProg_act_cons]
        rw [List.drop_succ_cons]
        exact ih v m hm

/-- Stage kinds of the calls invoked by a kind-ascending program are strictly
increasing and bounded below. -/
theorem runProg_calls {α : Type} (acts : Activities) :
    ∀ {n : ℕ} {p : Prog α}, CallsAsc n p → ∀ h : List AValue,
      ((runProg acts p h).invoked.map callKind).Pairwise (· < ·) ∧
      (∀ m ∈ (runProg acts p h).invoked.map callKind, n ≤ m) := by
  intro n p hp
  induction hp with
  | pure n a => intro h; simp [runProg_pure]
  | fail n e => intro h; simp [runProg_fail]
  | setProgress n q k hk ih =>
    intro h
    simpa only [runProg_setProgress] using ih h
  | act n c k hc hk ih =>
    intro h
    cases h with
    | nil =>
      rcases hpa : performActivity acts c with e | v
      · simp [runProg_act_nil_error acts c k hpa, hc]
      · obtain ⟨ih1, ih2⟩ := ih v []
        rw [runProg_act_nil_ok acts c k hpa]
        constructor
        · simp only [List.map_cons]
          refine List.pairwise_cons.mpr ⟨fun m hm => ?_, ih1⟩
          have := ih2 m hm
          omega
        · intro m hm
          simp only [List.map_cons, List.mem_cons] at hm
          rcases hm with rfl | hm
          · exact hc
          · have := ih2 m hm
            omega
    | cons v h2 =>
      obtain ⟨ih1, ih2⟩ := ih v h2
      rw [runProg_act_cons]
      refine ⟨ih1, fun m hm => ?_⟩
      have := ih2 m hm
      omega

/-- A run of a kind-ascending program never invokes the same activity call
twice. -/
theorem runProg_invoked_nodup {α : Type} (acts : Activities) {p : Prog α}
    (hp : CallsAsc 0 p) (h : List AValue) :
    (runProg acts p h).invoked.Nodup := by
  have h1 := (runProg_calls acts hp h).1
  have h2 : ((runProg acts p h).invoked.map callKind).Nodup :=
    h1.imp (fun hlt => Nat.ne_of_lt hlt)
  exact h2.of_map

theorem wfSaveAndFinish_callsAsc (input : TranslationWorkflowInput) (nowMs : ℕ)
    (tr : TranscriptionResult) (tl : TranslationResult) (sm : SummaryResult)
    (sb : SubtitleGenerationResult) (ovp : Option String) {n : ℕ} (hn : n ≤ 6) :
    CallsAsc n (wfSaveAndFinish input nowMs tr tl sm sb ovp) := by
  unfold wfSaveAndFinish
  refine CallsAsc.setProgress _ _ _ ?_
  refine CallsAsc.act _ _ _ hn ?_
  intro v
  cases v <;> try exact CallsAsc.fail _ _
  case artifacts r =>
    refine CallsAsc.act _ _ _ (by norm_num [callKind]) ?_
    intro v
    cases v <;> try exact CallsAsc.fail _ _
    case unitDone => exact CallsAsc.setProgress _ _ _ (CallsAsc.pure _ _)

theorem wfVideoStep_callsAsc (input : TranslationWorkflowInput) (nowMs : ℕ)
    (ovp : Option String) (tr : TranscriptionResult) (tl : TranslationResult)
    (sm : SummaryResult) (sb : SubtitleGenerationResult) {n : ℕ} (hn : n ≤ 5) :
    CallsAsc n (wfVideoStep input nowMs ovp tr tl sm sb) := by
  unfold wfVideoStep
  split
  · cases ovp with
    | none => exact CallsAsc.fail _ _
    | some p =>
      refine CallsAsc.setProgress _ _ _ ?_
      refine CallsAsc.act _ _ _ hn ?_
      intro v
      cases v <;> try exact CallsAsc.fail _ _
      case video r =>
        exact wfSaveAndFinish_callsAsc input nowMs tr tl sm sb _ (by norm_num [callKind])
  · exact wfSaveAndFinish_callsAsc input nowMs tr tl sm sb none (by omega)

theorem wfBody_callsAsc (input : TranslationWorkflowInput) (nowMs : ℕ) :
    CallsAsc 0 (wfBody input nowMs) := by
  unfold wfBody
  refine CallsAsc.setProgress _ _ _ ?_
  refine CallsAsc.act _ _ _ (by norm_num [callKind]) ?_
  intro v
  cases v <;> try exact CallsAsc.fail _ _
  case audio ar =>
    refine CallsAsc.setProgress _ _ _ ?_
    refine CallsAsc.act _ _ _ (by norm_num [callKind]) ?_
    intro v
    cases v <;> try exact CallsAsc.fail _ _
    case transcription tr =>
      refine CallsAsc.setProgress _ _ _ ?_
      refine CallsAsc.act _ _ _ (by norm_num [callKind]) ?_
      intro v
      cases v <;> try exact CallsAsc.fail _ _
      case translation tl =>
        refine CallsAsc.setProgress _ _ _ ?_
        refine CallsAsc.act _ _ _ (by norm_num [callKind]) ?_
        intro v
        cases v <;> try exact CallsAsc.fail _ _
        case summary sm =>
          refine CallsAsc.setProgress _ _ _ ?_
          refine CallsAsc.act _ _ _ (by norm_num [callKind]) ?_
          intro v
          cases v <;> try exact CallsAsc.fail _ _
          case subtitles sb =>
            exact wfVideoStep_callsAsc input nowMs ar.originalVideoPath tr tl sm sb
              (by norm_num [callKind])

/-! ## Claim C1 -/

/-- C1: re-invoking `translationWorkflow` on a run whose history already
records the results of stages `0..k` performs zero additional calls to those
stages' activities — replay consumes the checkpoints — and the calls it does
perform are exactly the fresh run's calls after stage `k` (resumption at
stage `k+1`). -/
theorem c1_resume_idempotence (acts : Activities) (input : TranslationWorkflowInput)
    (nowMs k : ℕ)
    (hk : k + 1 ≤ (translationWorkflow acts input nowMs []).completed.length) :
    (translationWorkflow acts input nowMs
        ((translationWorkflow acts input nowMs []).completed.take (k + 1))).invoked =
      (translationWorkflow acts input nowMs []).invoked.drop (k + 1) ∧
    (∀ c ∈ (translationWorkflow acts input nowMs
        ((translationWorkflow acts input nowMs []).completed.take (k + 1))).invoked,
      c ∉ (translationWorkflow acts input nowMs []).invoked.take (k + 1)) := by
  have hk2 : k + 1 ≤ (runProg acts (wfBody input nowMs) []).completed.length := by
    rwa [tw_completed] at hk
  have hrep := runProg_replay acts (wfBody input nowMs) (k + 1) hk2
  constructor
  · rw [tw_invoked, tw_invoked, tw_completed]
    exact hrep
  · intro c hc
    rw [tw_invoked, tw_completed, hrep] at hc
    rw [tw_invoked]
    have hnd : (runProg acts (wfBody input nowMs) []).invoked.Nodup :=
      runProg_invoked_nodup acts (wfBody_callsAsc input nowMs) []
    intro hmem
    have hsplit := List.take_append_drop (k + 1)
      (runProg acts (wfBody input nowMs) []).invoked
    rw [← hsplit] at hnd
    rcases List.nodup_append.mp hnd with ⟨-, -, hdisj⟩
    exact hdisj hmem hc

/-- Witness for C1: with the all-succeeding worker and checkpoints for stages
0..2, the replayed run re-invokes nothing before stage 3. -/
theorem c1_witness :
    (translationWorkflow sampleActs sampleInput 0
        ((translationWorkflow sampleActs sampleInput 0 []).completed.take 3)).invoked =
      (translationWorkflow sampleActs sampleInput 0 []).invoked.drop 3 ∧
    (∀ c ∈ (translationWorkflow sampleActs sampleInput 0
        ((translationWorkflow sampleActs sampleInput 0 []).completed.take 3)).invoked,
      c ∉ (translationWorkflow sampleActs sampleInput 0 []).invoked.take 3) :=
  c1_resume_idempotence sampleActs sampleInput 0 2 (by decide)

/-- Progress snapshots written by a well-formed program: bounded below,
mutually non-decreasing, `100` only on `completed`, `running` everywhere
except possibly the last write, and all-`running`/`≤ 95` when the program
fails. -/
theorem runProg_progress {α : Type} (acts : Activities) :
    ∀ {lo : ℕ} {p : Prog α}, ProgressWf lo p → ∀ h : List AValue,
    (∀ q ∈ (runProg acts p h).progressLog,
        lo ≤ q.percentComplete ∧ (q.percentComplete = 100 → q.status = .completed)) ∧
    (runProg acts p h).progressLog.Pairwise
      (fun a b => a.percentComplete ≤ b.percentComplete) ∧
    (∀ e, (runProg acts p h).result = .error e →
        ∀ q ∈ (runProg acts p h).progressLog,
          q.status = .running ∧ q.percentComplete ≤ 95) ∧
    (∀ q ∈ (runProg acts p h).progressLog.dropLast, q.status = .running) := by
  intro lo p hp
  induction hp with
  | pure lo a => intro h; simp [runProg_pure]
  | fail lo e => intro h; simp [runProg_fail]
  | step lo q k h1 h2 h3 hk ih =>
    intro h
    obtain ⟨ihA, ihB, ihC, ihD⟩ := ih h
    simp only [runProg_setProgress]
    refine ⟨?_, ?_, ?_, ?_⟩
    · intro q2 hq2
      rcases List.mem_cons.mp hq2 with rfl | hq2
      · exact ⟨h1, fun habs => absurd habs (by omega)⟩
      · obtain ⟨ha, hb⟩ := ihA q2 hq2
        exact ⟨le_trans h1 ha, hb⟩
    · exact List.pairwise_cons.mpr ⟨fun q2 hq2 => (ihA q2 hq2).1, ihB⟩
    · intro e he q2 hq2
      rcases List.mem_cons.mp hq2 with rfl | hq2
      · exact ⟨h3, h2⟩
      · exact ihC e he q2 hq2
    · cases hL : (runProg acts k h).progressLog with
      | nil => simp [hL]
      | cons x xs =>
        rw [hL] at ihD
        rw [List.dropLast_cons₂]
        intro q2 hq2
        rcases List.mem_cons.mp hq2 with rfl | hq2
        · exact h3
        · exact ihD q2 hq2
  | final lo q a h1 h2 h3 =>
    intro h
    simp only [runProg_setProgress, runProg_pure]
    refine ⟨?_, ?_, ?_, ?_⟩
    · intro q2 hq2
      rcases List.mem_cons.mp hq2 with rfl | hq2
      · exact ⟨h1, fun _ => h2⟩
      · simp at hq2
    · simp
    · intro e he
      simp at he
    · simp
  | act lo c k hk ih =>
    intro h
    cases h with
    | nil =>
      rcases hpa : performActivity acts c with e | v
      · simp [runProg_act_nil_error acts c k hpa]
      · obtain ⟨ihA, ihB, ihC, ihD⟩ := ih v []
        simp only [runProg_act_nil_ok acts c k hpa]
        exact ⟨ihA, ihB, ihC, ihD⟩
    | cons v h2 =>
      obtain ⟨ihA, ihB, ihC, ihD⟩ := ih v h2
      simp only [runProg_act_cons]
      exact ⟨ihA, ihB, ihC, ihD⟩

theorem wfSaveAndFinish_progressWf (input : TranslationWorkflowInput) (nowMs : ℕ)
    (tr : TranscriptionResult) (tl : TranslationResult) (sm : SummaryResult)
    (sb : SubtitleGenerationResult) (ovp : Option String) {lo : ℕ} (hlo : lo ≤ 95) :
    ProgressWf lo (wfSaveAndFinish input nowMs tr tl sm sb ovp) := by
  unfold wfSaveAndFinish
  refine ProgressWf.step _ _ _ (by simpa [wfSaveSnap] using hlo) (by norm_num [wfSaveSnap]) rfl ?_
  refine ProgressWf.act _ _ _ ?_
  intro v
  cases v <;> try exact ProgressWf.fail _ _
  case artifacts r =>
    refine ProgressWf.act _ _ _ ?_
    intro v
    cases v <;> try exact ProgressWf.fail _ _
    case unitDone =>
      exact ProgressWf.final _ _ _ (by norm_num [wfSaveSnap, wfDoneSnap]) rfl rfl

theorem wfVideoStep_progressWf (input : TranslationWorkflowInput) (nowMs : ℕ)
    (ovp : Option String) (tr : TranscriptionResult) (tl : TranslationResult)
    (sm : SummaryResult) (sb : SubtitleGenerationResult) {lo : ℕ} (hlo : lo ≤ 85) :
    ProgressWf lo (wfVideoStep input nowMs ovp tr tl sm sb) := by
  unfold wfVideoStep
  split
  · cases ovp with
    | none => exact ProgressWf.fail _ _
    | some p =>
      refine ProgressWf.step _ _ _ (by simpa [wfVideoSnap] using hlo)
        (by norm_num [wfVideoSnap]) rfl ?_
      refine ProgressWf.act _ _ _ ?_
      intro v
      cases v <;> try exact ProgressWf.fail _ _
      case video r =>
        exact wfSaveAndFinish_progressWf input nowMs tr tl sm sb _
          (by norm_num [wfVideoSnap])
  · exact wfSaveAndFinish_progressWf input nowMs tr tl sm sb none (by omega)

theorem wfBody_progressWf (input : TranslationWorkflowInput) (nowMs : ℕ) :
    ProgressWf 0 (wfBody input nowMs) := by
  unfold wfBody
  refine ProgressWf.step _ _ _ (by norm_num [wfStep1Snap])
    (by norm_num [wfStep1Snap]) rfl ?_
  refine ProgressWf.act _ _ _ ?_
  intro v
  cases v <;> try exact ProgressWf.fail _ _
  case audio ar =>
    refine ProgressWf.step _ _ _ (by norm_num [wfStep1Snap, wfStep2Snap])
      (by norm_num [wfStep2Snap]) rfl ?_
    refine ProgressWf.act _ _ _ ?_
    intro v
    cases v <;> try exact ProgressWf.fail _ _
    case transcription tr =>
      refine ProgressWf.step _ _ _ (by norm_num [wfStep2Snap, wfStep3Snap])
        (by norm_num [wfStep3Snap]) rfl ?_
      refine ProgressWf.act _ _ _ ?_
      intro v
      cases v <;> try exact ProgressWf.fail _ _
      case translation tl =>
        refine ProgressWf.step _ _ _ (by norm_num [wfStep3Snap, wfStep4Snap])
          (by norm_num [wfStep4Snap]) rfl ?_
        refine ProgressWf.act _ _ _ ?_
        intro v
        cases v <;> try exact ProgressWf.fail _ _
        case summary sm =>
          refine ProgressWf.step _ _ _ (by norm_num [wfStep4Snap, wfStep5Snap])
            (by norm_num [wfStep5Snap]) rfl ?_
          refine ProgressWf.act _ _ _ ?_
          intro v
          cases v <;> try exact ProgressWf.fail _ _
          case subtitles sb =>
            exact wfVideoStep_progressWf input nowMs ar.originalVideoPath tr tl sm sb
              (by norm_num [wfStep5Snap])

/-- Peeling one element off `getLastD`. -/
theorem getLastD_cons_eq {α : Type} (x : α) (xs : List α) (d : α) :
    (x :: xs).getLastD d = xs.getLastD x := by
  cases xs with
  | nil => rfl
  | cons y ys =>
    simp only [List.getLastD_eq_getLast?, List.getLast?_cons_cons]
    cases hq : (y :: ys).getLast? with
    | none => simp at hq
    | some z => rfl

/-- In a percent-non-decreasing snapshot list the last element dominates. -/
theorem pairwise_le_getLastD (l : List WorkflowProgress)
    (hl : l.Pairwise (fun a b => a.percentComplete ≤ b.percentComplete))
    (d : WorkflowProgress) :
    ∀ a ∈ l, a.percentComplete ≤ (l.getLastD d).percentComplete := by
  induction l generalizing d with
  | nil => intro a ha; simp at ha
  | cons x xs ih =>
    intro a ha
    obtain ⟨hx, hxs⟩ := List.pairwise_cons.mp hl
    rw [getLastD_cons_eq]
    rcases List.mem_cons.mp ha with rfl | ha
    · rcases List.mem_cons.mp (List.getLastD_mem_cons xs a) with heq | hmem
      · rw [heq]
      · exact hx _ hmem
    · exact ih hxs x a ha

/-- The wrapper's progress log on workflow success: the initial snapshot then
the body's writes. -/
theorem tw_progressLog_ok (acts : Activities) (input : TranslationWorkflowInput)
    (nowMs : ℕ) (h : List AValue) {res : TranslationWorkflowResult}
    (hr : (runProg acts (wfBody input nowMs) h).result = .ok res) :
    (translationWorkflow acts input nowMs h).progressLog =
      initialProgress input :: (runProg acts (wfBody input nowMs) h).progressLog := by
  unfold translationWorkflow
  simp only [hr]

/-- The wrapper's progress log on workflow failure: the initial snapshot, the
body's writes, and a failed copy of the last snapshot. -/
theorem tw_progressLog_error (acts : Activities) (input : TranslationWorkflowInput)
    (nowMs : ℕ) (h : List AValue) {e : JsError}
    (hr : (runProg acts (wfBody input nowMs) h).result = .error e) :
    (translationWorkflow acts input nowMs h).progressLog =
      (initialProgress input :: (runProg acts (wfBody input nowMs) h).progressLog) ++
        [{ (runProg acts (wfBody input nowMs) h).progressLog.getLastD
              (initialProgress input) with
            status := .failed, error := some e.message }] := by
  unfold translationWorkflow
  simp only [hr]

/-! ## Claim C2 -/

/-- C2: along any single run, the `percentComplete` values written to the
progress snapshot are non-decreasing (pairwise, hence along any sequence of
reads), every snapshot except the last write is still `running` (so the
monotone prefix lasts until the terminal status), a snapshot shows `100`
percent only with status `completed`, and a progress query on a running
workflow returns the written snapshot verbatim. -/
theorem c2_monotone_progress (acts : Activities) (input : TranslationWorkflowInput)
    (nowMs : ℕ) (history : List AValue) :
    (translationWorkflow acts input nowMs history).progressLog.Pairwise
      (fun a b => a.percentComplete ≤ b.percentComplete) ∧
    (∀ q ∈ (translationWorkflow acts input nowMs history).progressLog,
        q.percentComplete = 100 → q.status = .completed) ∧
    (∀ q ∈ (translationWorkflow acts input nowMs history).progressLog.dropLast,
        q.status = .running) ∧
    (∀ snap, queryWorkflowProgress (.answered snap) = snap) := by
  obtain ⟨hA, hB, hC, hD⟩ :=
    runProg_progress acts (wfBody_progressWf input nowMs) history
  cases hr : (runProg acts (wfBody input nowMs) history).result with
  | ok res =>
    rw [tw_progressLog_ok acts input nowMs history hr]
    refine ⟨?_, ?_, ?_, fun snap => rfl⟩
    · refine List.pairwise_cons.mpr ⟨fun q hq => ?_, hB⟩
      exact (hA q hq).1
    · intro q hq
      rcases List.mem_cons.mp hq with rfl | hq
      · intro habs
        simp [initialProgress] at habs
      · exact (hA q hq).2
    · cases hL : (runProg acts (wfBody input nowMs) history).progressLog with
      | nil => simp
      | cons x xs =>
        rw [List.dropLast_cons₂]
        intro q hq
        rcases List.mem_cons.mp hq with rfl | hq
        · rfl
        · rw [hL] at hD
          exact hD q hq
  | error e =>
    rw [tw_progressLog_error acts input nowMs history hr]
    have hrun := hC e hr
    have hfailpc :
        ({ (runProg acts (wfBody input nowMs) history).progressLog.getLastD
              (initialProgress input) with
            status := WfStatus.failed, error := some e.message }).percentComplete =
          ((runProg acts (wfBody input nowMs) history).progressLog.getLastD
              (initialProgress input)).percentComplete := rfl
    have hlastle :
        ((runProg acts (wfBody input nowMs) history).progressLog.getLastD
            (initialProgress input)).percentComplete ≤ 95 := by
      rcases List.mem_cons.mp
          (List.getLastD_mem_cons
            (runProg acts (wfBody input nowMs) history).progressLog
            (initialProgress input)) with heq | hmem
      · rw [heq]
        simp [initialProgress]
      · exact (hrun _ hmem).2
    refine ⟨?_, ?_, ?_, fun snap => rfl⟩
    · rw [List.pairwise_append]
      refine ⟨?_, by simp, ?_⟩
      · refine List.pairwise_cons.mpr ⟨fun q hq => (hA q hq).1, hB⟩
      · intro a ha b hb
        rcases List.mem_singleton.mp hb with rfl
        rw [hfailpc]
        rcases List.mem_cons.mp ha with rfl | ha
        · simp [initialProgress]
        · exact pairwise_le_getLastD _ hB (initialProgress input) a ha
    · intro q hq
      rcases List.mem_append.mp hq with hq | hq
      · rcases List.mem_cons.mp hq with rfl | hq
        · intro habs
          simp [initialProgress] at habs
        · exact (hA q hq).2
      · rcases List.mem_singleton.mp hq with rfl
        intro habs
        rw [hfailpc] at habs
        omega
    · rw [List.dropLast_concat]
      intro q hq
      rcases List.mem_cons.mp hq with rfl | hq
      · rfl
      · exact (hrun q hq).1

/-- Witness for C2 at the all-succeeding worker: the written percentages are
pairwise non-decreasing. -/
theorem c2_witness :
    (translationWorkflow sampleActs sampleInput 0 []).progressLog.Pairwise
      (fun a b => a.percentComplete ≤ b.percentComplete) :=
  (c2_monotone_progress sampleActs sampleInput 0 []).1

/-- Full evaluation of the save-and-finish tail under succeeding save and
cleanup activities. -/
theorem runProg_saveFinish_eq (acts : Activities) (input : TranslationWorkflowInput)
    (nowMs : ℕ) (tr : TranscriptionResult) (tl : TranslationResult)
    (sm : SummaryResult) (sb : SubtitleGenerationResult) (ovp : Option String)
    (sa : SaveArtifactsInput → SaveArtifactsResult)
    (hsa : ∀ i, acts.saveWorkflowArtifacts i = .ok (sa i))
    (hc : acts.cleanupTempFilesActivity = .ok ()) :
    runProg acts (wfSaveAndFinish input nowMs tr tl sm sb ovp) [] =
      { invoked := [.saveWorkflowArtifacts (mkSaveInput input nowMs tr tl sm sb ovp),
                    .cleanupTempFiles]
        completed := [.artifacts (sa (mkSaveInput input nowMs tr tl sm sb ovp)),
                      .unitDone]
        progressLog := [wfSaveSnap input, wfDoneSnap input]
        result := .ok (mkWfResult tr tl sm sb ovp
          (sa (mkSaveInput input nowMs tr tl sm sb ovp))) } := by
  have p7 : performActivity acts
      (.saveWorkflowArtifacts (mkSaveInput input nowMs tr tl sm sb ovp)) =
      .ok (.artifacts (sa (mkSaveInput input nowMs tr tl sm sb ovp))) := by
    simp [performActivity, Except.map, hsa]
  have p8 : performActivity acts .cleanupTempFiles = .ok .unitDone := by
    simp [performActivity, Except.map, hc]
  unfold wfSaveAndFinish
  rw [runProg_setProgress, runProg_act_nil_ok acts _ _ p7]
  dsimp only
  rw [runProg_act_nil_ok acts _ _ p8]
  dsimp only
  rw [runProg_setProgress, runProg_pure]

/-- With `generateVideo && originalVideoPath` falsy, the optional video step
is the save-and-finish tail with no output video. -/
theorem wfVideoStep_skip (input : TranslationWorkflowInput) (nowMs : ℕ)
    (ovp : Option String) (tr : TranscriptionResult) (tl : TranslationResult)
    (sm : SummaryResult) (sb : SubtitleGenerationResult)
    (hcond : (wfGenerateVideo input && optStrTruthy ovp) = false) :
    wfVideoStep input nowMs ovp tr tl sm sb =
      wfSaveAndFinish input nowMs tr tl sm sb none := by
  unfold wfVideoStep
  rw [if_neg (by simp [hcond])]

/-- With `generateVideo && originalVideoPath` truthy, the workflow writes the
step-6 snapshot and awaits `generateOutputVideo`. -/
theorem runProg_videoStep_eq (acts : Activities) (input : TranslationWorkflowInput)
    (nowMs : ℕ) (p : String) (tr : TranscriptionResult) (tl : TranslationResult)
    (sm : SummaryResult) (sb : SubtitleGenerationResult)
    (gv : GenerateOutputVideoInput → GenerateOutputVideoResult)
    (hcond : (wfGenerateVideo input && optStrTruthy (some p)) = true)
    (hv : ∀ gi, acts.generateOutputVideo gi = .ok (gv gi)) :
    runProg acts (wfVideoStep input nowMs (some p) tr tl sm sb) [] =
      { invoked := .generateOutputVideo (mkVideoInput input p sb) ::
          (runProg acts (wfSaveAndFinish input nowMs tr tl sm sb
            (some ((gv (mkVideoInput input p sb)).outputPath))) []).invoked
        completed := .video (gv (mkVideoInput input p sb)) ::
          (runProg acts (wfSaveAndFinish input nowMs tr tl sm sb
            (some ((gv (mkVideoInput input p sb)).outputPath))) []).completed
        progressLog := wfVideoSnap input ::
          (runProg acts (wfSaveAndFinish input nowMs tr tl sm sb
            (some ((gv (mkVideoInput input p sb)).outputPath))) []).progressLog
        result := (runProg acts (wfSaveAndFinish input nowMs tr tl sm sb
          (some ((gv (mkVideoInput input p sb)).outputPath))) []).result } := by
  have pV : performActivity acts (.generateOutputVideo (mkVideoInput input p sb)) =
      .ok (.video (gv (mkVideoInput input p sb))) := by
    simp [performActivity, Except.map, hv]
  unfold wfVideoStep
  rw [if_pos hcond]
  rw [runProg_setProgress, runProg_act_nil_ok acts _ _ pV]

/-- Evaluation of the workflow body through the five unconditional stages. -/
theorem runProg_wfBody_eq (acts : Activities) (input : TranslationWorkflowInput)
    (nowMs : ℕ) (ar : AudioExtractionResult) (tr : TranscriptionResult)
    (tl : TranslationResult) (sm : SummaryResult) (sb : SubtitleGenerationResult)
    (hx : acts.extractAudio input.videoUrl = .ok ar)
    (ht : acts.transcribeAudio ar.audioPath (orString input.sourceLanguage "en") = .ok tr)
    (htr : acts.translateText tr.text tr.language input.targetLanguage = .ok tl)
    (hs : acts.generateSummary tl.translatedText input.targetLanguage = .ok sm)
    (hsub : acts.generateSubtitles tr.segments tl.translatedText
      input.targetLanguage = .ok sb) :
    runProg acts (wfBody input nowMs) [] =
      { invoked := [.extractAudio input.videoUrl,
                    .transcribeAudio ar.audioPath (orString input.sourceLanguage "en"),
                    .translateText tr.text tr.language input.targetLanguage,
                    .generateSummary tl.translatedText input.targetLanguage,
                    .generateSubtitles tr.segments tl.translatedText input.targetLanguage]
          ++ (runProg acts (wfVideoStep input nowMs ar.originalVideoPath
              tr tl sm sb) []).invoked
        completed := [.audio ar, .transcription tr, .translation tl, .summary sm,
                      .subtitles sb]
          ++ (runProg acts (wfVideoStep input nowMs ar.originalVideoPath
              tr tl sm sb) []).completed
        progressLog := [wfStep1Snap input, wfStep2Snap input, wfStep3Snap input,
                        wfStep4Snap input, wfStep5Snap input]
          ++ (runProg acts (wfVideoStep input nowMs ar.originalVideoPath
              tr tl sm sb) []).progressLog
        result := (runProg acts (wfVideoStep input nowMs ar.originalVideoPath
          tr tl sm sb) []).result } := by
  have p1 : performActivity acts (.extractAudio input.videoUrl) = .ok (.audio ar) := by
    simp [performActivity, Except.map, hx]
  have p2 : performActivity acts
      (.transcribeAudio ar.audioPath (orString input.sourceLanguage "en")) =
      .ok (.transcription tr) := by
    simp [performActivity, Except.map, ht]
  have p3 : performActivity acts
      (.translateText tr.text tr.language input.targetLanguage) =
      .ok (.translation tl) := by
    simp [performActivity, Except.map, htr]
  have p4 : performActivity acts
      (.generateSummary tl.translatedText input.targetLanguage) =
      .ok (.summary sm) := by
    simp [performActivity, Except.map, hs]
  have p5 : performActivity acts
      (.generateSubtitles tr.segments tl.translatedText input.targetLanguage) =
      .ok (.subtitles sb) := by
    simp [performActivity, Except.map, hsub]
  unfold wfBody
  rw [runProg_setProgress, runProg_act_nil_ok acts _ _ p1]
  dsimp only
  rw [runProg_setProgress, runProg_act_nil_ok acts _ _ p2]
  dsimp only
  rw [runProg_setProgress, runProg_act_nil_ok acts _ _ p3]
  dsimp only
  rw [runProg_setProgress, runProg_act_nil_ok acts _ _ p4]
  dsimp only
  rw [runProg_setProgress, runProg_act_nil_ok acts _ _ p5]
  dsimp only
  rfl

/-! ## Claim C5 -/

/-- C5 counterexample: on a run whose transcription stage fails terminally,
the workflow ends `failed` without ever invoking the temp-file cleanup
activity — cleanup is not attempted after a terminal failure (it is only
called on the success path, line 153, inside the `try`). -/
theorem c5_counterexample :
    (translationWorkflow failingTranscribeActs sampleInput 0 []).result =
      .error connResetError ∧
    ActivityCall.cleanupTempFiles ∉
      (translationWorkflow failingTranscribeActs sampleInput 0 []).invoked ∧
    ((translationWorkflow failingTranscribeActs sampleInput 0 []).progressLog.getLastD
        (initialProgress sampleInput)).status = .failed := by
  refine ⟨rfl, by decide, rfl⟩

/-- C5 (amended): on the success path the cleanup stage is always attempted
(before the run is marked completed), and a failure of the underlying
temp-file removal is swallowed inside `cleanupTempFilesActivity` — it is
logged, never promoted to a run failure; after a terminal stage failure,
however, cleanup is not attempted at all. -/
theorem c5_cleanup_success_path_only (acts : Activities)
    (input : TranslationWorkflowInput) (nowMs : ℕ) (ar : AudioExtractionResult)
    (tr : TranscriptionResult) (tl : TranslationResult) (sm : SummaryResult)
    (sb : SubtitleGenerationResult)
    (gv : GenerateOutputVideoInput → GenerateOutputVideoResult)
    (sa : SaveArtifactsInput → SaveArtifactsResult)
    (underlying : Except JsError Unit)
    (hx : acts.extractAudio input.videoUrl = .ok ar)
    (ht : acts.transcribeAudio ar.audioPath (orString input.sourceLanguage "en") = .ok tr)
    (htr : acts.translateText tr.text tr.language input.targetLanguage = .ok tl)
    (hs : acts.generateSummary tl.translatedText input.targetLanguage = .ok sm)
    (hsub : acts.generateSubtitles tr.segments tl.translatedText
      input.targetLanguage = .ok sb)
    (hv : ∀ gi, acts.generateOutputVideo gi = .ok (gv gi))
    (hsa : ∀ i, acts.saveWorkflowArtifacts i = .ok (sa i))
    (hc : acts.cleanupTempFilesActivity = cleanupTempFilesActivityModel underlying) :
    ActivityCall.cleanupTempFiles ∈ (translationWorkflow acts input nowMs []).invoked ∧
    (∃ res, (translationWorkflow acts input nowMs []).result = .ok res) ∧
    cleanupTempFilesActivityModel underlying = .ok () ∧
    (∀ (acts2 : Activities) (e : JsError),
      acts2.extractAudio input.videoUrl = .ok ar →
      acts2.transcribeAudio ar.audioPath (orString input.sourceLanguage "en") =
        .error e →
      ActivityCall.cleanupTempFiles ∉
        (translationWorkflow acts2 input nowMs []).invoked) := by
  have hcOk : acts.cleanupTempFilesActivity = .ok () := by
    rw [hc]
    cases underlying <;> rfl
  have hmain : ActivityCall.cleanupTempFiles ∈
        (runProg acts (wfBody input nowMs) []).invoked ∧
      ∃ res, (runProg acts (wfBody input nowMs) []).result = .ok res := by
    rw [runProg_wfBody_eq acts input nowMs ar tr tl sm sb hx ht htr hs hsub]
    by_cases hcond : (wfGenerateVideo input && optStrTruthy ar.originalVideoPath) = true
    · obtain ⟨p, hp⟩ : ∃ p, ar.originalVideoPath = some p := by
        cases hov : ar.originalVideoPath with
        | none => rw [hov] at hcond; simp [optStrTruthy] at hcond
        | some p => exact ⟨p, rfl⟩
      rw [hp] at hcond ⊢
      rw [runProg_videoStep_eq acts input nowMs p tr tl sm sb gv hcond hv,
        runProg_saveFinish_eq acts input nowMs tr tl sm sb _ sa hsa hcOk]
      exact ⟨by simp, ⟨_, rfl⟩⟩
    · have hcond2 : (wfGenerateVideo input && optStrTruthy ar.originalVideoPath) = false := by
        simpa using hcond
      rw [wfVideoStep_skip input nowMs ar.originalVideoPath tr tl sm sb hcond2,
        runProg_saveFinish_eq acts input nowMs tr tl sm sb none sa hsa hcOk]
      exact ⟨by simp, ⟨_, rfl⟩⟩
  refine ⟨?_, ?_, ?_, ?_⟩
  · rw [tw_invoked]
    exact hmain.1
  · obtain ⟨res, hres⟩ := hmain.2
    exact ⟨res, by rw [tw_result]; exact hres⟩
  · cases underlying <;> rfl
  · intro acts2 e hx2 ht2
    rw [tw_invoked]
    have p1 : performActivity acts2 (.extractAudio input.videoUrl) =
        .ok (.audio ar) := by
      simp [performActivity, Except.map, hx2]
    have p2 : performActivity acts2
        (.transcribeAudio ar.audioPath (orString input.sourceLanguage "en")) =
        .error e := by
      simp [performActivity, Except.map, ht2]
    unfold wfBody
    rw [runProg_setProgress, runProg_act_nil_ok acts2 _ _ p1]
    dsimp only
    rw [runProg_setProgress, runProg_act_nil_error acts2 _ _ p2]
    simp

/-- Witness for C5 (amended) at a worker whose underlying temp-file removal
fails: cleanup is still attempted and swallowed. -/
theorem c5_witness :
    ActivityCall.cleanupTempFiles ∈
      (translationWorkflow cleanupFailActs sampleInput 0 []).invoked ∧
    cleanupTempFilesActivityModel (.error cleanupError) = .ok () := by
  have h := c5_cleanup_success_path_only cleanupFailActs sampleInput 0
    sampleAudio sampleTranscription sampleTranslation sampleSummary sampleSubtitles
    (fun _ => sampleVideoOut) (fun _ => sampleArtifacts) (.error cleanupError)
    rfl rfl rfl rfl rfl (fun _ => rfl) (fun _ => rfl) rfl
  exact ⟨h.1, h.2.2.1⟩

/-! ## Claim C10 -/

/-- C10: on a run whose unconditional stages succeed, `generateOutputVideo`
is invoked exactly when the `generateVideo` option (defaulting to true) is set
and audio extraction returned a (truthy) `originalVideoPath`; when it is
skipped because `originalVideoPath` is absent while `generateVideo` is true,
the run still completes — result `ok` with no `outputVideoPath`, final
snapshot `Completed`/100 — even though `totalSteps` was computed as 7. -/
theorem c10_output_video_condition (acts : Activities)
    (input : TranslationWorkflowInput) (nowMs : ℕ) (ar : AudioExtractionResult)
    (tr : TranscriptionResult) (tl : TranslationResult) (sm : SummaryResult)
    (sb : SubtitleGenerationResult)
    (gv : GenerateOutputVideoInput → GenerateOutputVideoResult)
    (sa : SaveArtifactsInput → SaveArtifactsResult)
    (hx : acts.extractAudio input.videoUrl = .ok ar)
    (ht : acts.transcribeAudio ar.audioPath (orString input.sourceLanguage "en") = .ok tr)
    (htr : acts.translateText tr.text tr.language input.targetLanguage = .ok tl)
    (hs : acts.generateSummary tl.translatedText input.targetLanguage = .ok sm)
    (hsub : acts.generateSubtitles tr.segments tl.translatedText
      input.targetLanguage = .ok sb)
    (hv : ∀ gi, acts.generateOutputVideo gi = .ok (gv gi))
    (hsa : ∀ i, acts.saveWorkflowArtifacts i = .ok (sa i))
    (hc : acts.cleanupTempFilesActivity = .ok ()) :
    ((∃ gi, ActivityCall.generateOutputVideo gi ∈
        (translationWorkflow acts input nowMs []).invoked) ↔
      (wfGenerateVideo input = true ∧ optStrTruthy ar.originalVideoPath = true)) ∧
    (wfGenerateVideo input = true → ar.originalVideoPath = none →
      (translationWorkflow acts input nowMs []).result =
        .ok (mkWfResult tr tl sm sb none
          (sa (mkSaveInput input nowMs tr tl sm sb none))) ∧
      (mkWfResult tr tl sm sb none
        (sa (mkSaveInput input nowMs tr tl sm sb none))).outputVideoPath = none ∧
      (translationWorkflow acts input nowMs []).progressLog.getLastD
        (initialProgress input) = wfDoneSnap input ∧
      (wfDoneSnap input).percentComplete = 100 ∧
      (wfDoneSnap input).status = .completed ∧
      wfTotalSteps input = 7) := by
  constructor
  · rw [tw_invoked, runProg_wfBody_eq acts input nowMs ar tr tl sm sb hx ht htr hs hsub]
    by_cases hcond : (wfGenerateVideo input && optStrTruthy ar.originalVideoPath) = true
    · obtain ⟨p, hp⟩ : ∃ p, ar.originalVideoPath = some p := by
        cases hov : ar.originalVideoPath with
        | none => rw [hov] at hcond; simp [optStrTruthy] at hcond
        | some p => exact ⟨p, rfl⟩
      rw [hp] at hcond ⊢
      rw [runProg_videoStep_eq acts input nowMs p tr tl sm sb gv hcond hv,
        runProg_saveFinish_eq acts input nowMs tr tl sm sb _ sa hsa hc]
      obtain ⟨hgen, htruthy⟩ := (Bool.and_eq_true _ _).mp hcond
      constructor
      · intro _
        exact ⟨hgen, htruthy⟩
      · intro _
        exact ⟨mkVideoInput input p sb, by simp⟩
    · have hcond2 : (wfGenerateVideo input && optStrTruthy ar.originalVideoPath) =
          false := by
        simpa using hcond
      rw [wfVideoStep_skip input nowMs ar.originalVideoPath tr tl sm sb hcond2,
        runProg_saveFinish_eq acts input nowMs tr tl sm sb none sa hsa hc]
      constructor
      · rintro ⟨gi, hgi⟩
        simp at hgi
      · rintro ⟨h1, h2⟩
        rw [h1, h2] at hcond2
        simp at hcond2
  · intro hgen hov
    have hcond2 : (wfGenerateVideo input && optStrTruthy ar.originalVideoPath) =
        false := by
      rw [hov]
      simp [optStrTruthy]
    have hres : (runProg acts (wfBody input nowMs) []).result =
        .ok (mkWfResult tr tl sm sb none
          (sa (mkSaveInput input nowMs tr tl sm sb none))) := by
      rw [runProg_wfBody_eq acts input nowMs ar tr tl sm sb hx ht htr hs hsub,
        wfVideoStep_skip input nowMs ar.originalVideoPath tr tl sm sb hcond2,
        runProg_saveFinish_eq acts input nowMs tr tl sm sb none sa hsa hc]
    have hlog : (runProg acts (wfBody input nowMs) []).progressLog =
        [wfStep1Snap input, wfStep2Snap input, wfStep3Snap input, wfStep4Snap input,
         wfStep5Snap input] ++ [wfSaveSnap input, wfDoneSnap input] := by
      rw [runProg_wfBody_eq acts input nowMs ar tr tl sm sb hx ht htr hs hsub,
        wfVideoStep_skip input nowMs ar.originalVideoPath tr tl sm sb hcond2,
        runProg_saveFinish_eq acts input nowMs tr tl sm sb none sa hsa hc]
    refine ⟨?_, rfl, ?_, rfl, rfl, ?_⟩
    · rw [tw_result]
      exact hres
    · rw [tw_progressLog_ok acts input nowMs [] hres, hlog]
      have hsplit : initialProgress input ::
          ([wfStep1Snap input, wfStep2Snap input, wfStep3Snap input, wfStep4Snap input,
            wfStep5Snap input] ++ [wfSaveSnap input, wfDoneSnap input]) =
          (initialProgress input ::
            [wfStep1Snap input, wfStep2Snap input, wfStep3Snap input, wfStep4Snap input,
             wfStep5Snap input, wfSaveSnap input]) ++ [wfDoneSnap input] := by
        simp
      rw [hsplit, List.getLastD_concat]
    · simp [wfTotalSteps, hgen]

/-- Witness for C10 at a pure-audio input: `generateVideo` defaults to true
but extraction finds no original video, so the video stage is skipped and the
run still finishes `Completed`. -/
theorem c10_witness :
    (¬ ∃ gi, ActivityCall.generateOutputVideo gi ∈
      (translationWorkflow noVideoActs sampleInput 0 []).invoked) ∧
    (translationWorkflow noVideoActs sampleInput 0 []).progressLog.getLastD
      (initialProgress sampleInput) = wfDoneSnap sampleInput := by
  have h := c10_output_video_condition noVideoActs sampleInput 0 audioOnlyResult
    sampleTranscription sampleTranslation sampleSummary sampleSubtitles
    (fun _ => sampleVideoOut) (fun _ => sampleArtifacts)
    rfl rfl rfl rfl rfl (fun _ => rfl) (fun _ => rfl) rfl
  constructor
  · intro hex
    rcases h.1.mp hex with ⟨-, habs⟩
    simp [audioOnlyResult, optStrTruthy] at habs
  · exact (h.2 rfl rfl).2.2.1

/-! ## Claim C6: decimal-digit and padding lemmas -/

theorem digitChar_isDigit {m : ℕ} (hm : m < 10) :
    (Nat.digitChar m).isDigit = true := by
  interval_cases m <;> decide

theorem toDigitsCore_digits (f : ℕ) :
    ∀ (n : ℕ) (l : List Char), (∀ c ∈ l, c.isDigit = true) →
      ∀ c ∈ Nat.toDigitsCore 10 f n l, c.isDigit = true := by
  induction f with
  | zero =>
    intro n l hl c hc
    exact hl c hc
  | succ f ih =>
    intro n l hl c hc
    rw [Nat.toDigitsCore] at hc
    by_cases h : n / 10 = 0
    · simp only [h, if_true] at hc
      rcases List.mem_cons.mp hc with rfl | hc
      · exact digitChar_isDigit (Nat.mod_lt _ (by omega))
      · exact hl c hc
    · simp only [h, if_false] at hc
      refine ih (n / 10) _ ?_ c hc
      intro c2 hc2
      rcases List.mem_cons.mp hc2 with rfl | hc2
      · exact digitChar_isDigit (Nat.mod_lt _ (by omega))
      · exact hl c2 hc2

theorem toDigitsCore_ne_nil (f : ℕ) :
    ∀ (n : ℕ) (l : List Char), l ≠ [] ∨ f ≠ 0 → Nat.toDigitsCore 10 f n l ≠ [] := by
  induction f with
  | zero =>
    intro n l h
    rcases h with h | h
    · exact h
    · exact absurd rfl h
  | succ f ih =>
    intro n l _
    rw [Nat.toDigitsCore]
    by_cases h : n / 10 = 0
    · simp [h]
    · simp only [h, if_false]
      exact ih (n / 10) _ (Or.inl (by simp))

theorem natRepr_digits (n : ℕ) : ∀ c ∈ (Nat.repr n).data, c.isDigit = true := by
  intro c hc
  exact toDigitsCore_digits (n + 1) n [] (by simp) c hc

theorem natRepr_ne_nil (n : ℕ) : (Nat.repr n).data ≠ [] :=
  toDigitsCore_ne_nil (n + 1) n [] (Or.inr (by omega))

/-- `toString` of a non-negative integer is the decimal `Nat.repr` of its
absolute value. -/
theorem intToString_nonneg (n : ℤ) (hn : 0 ≤ n) :
    toString n = Nat.repr n.toNat := by
  lift n to ℕ using hn
  rfl

theorem padStartStr_data (s : String) (size : ℕ) (c : Char) :
    (padStartStr s size c).data = List.replicate (size - s.length) c ++ s.data := by
  unfold padStartStr
  split
  · have : size - s.length = 0 := by omega
    simp [this]
  · cases s
    rfl

theorem padStartStr_length (s : String) (size : ℕ) (c : Char) :
    (padStartStr s size c).length = max size s.length := by
  have h := padStartStr_data s size c
  have : (padStartStr s size c).length = (padStartStr s size c).data.length := rfl
  rw [this, h]
  have hs : s.length = s.data.length := rfl
  simp [List.length_append, List.length_replicate]
  omega

/-- Padding a non-negative integer yields only digits. -/
theorem pad_digits (n : ℤ) (hn : 0 ≤ n) (size : ℕ) : DigitsOnly (pad n size) := by
  intro c hc
  unfold pad at hc
  rw [padStartStr_data] at hc
  rcases List.mem_append.mp hc with hc | hc
  · rw [List.eq_of_mem_replicate hc]
    decide
  · rw [intToString_nonneg n hn] at hc
    exact natRepr_digits n.toNat c hc

/-- Padding a non-negative integer to `size` digits is exact when its decimal
representation is at most `size` long. -/
theorem pad_length_eq (n : ℤ) (hn : 0 ≤ n) (size e : ℕ) (he : 0 < e)
    (hb : n < (10 : ℤ) ^ e) (hse : e ≤ size) : (pad n size).length = size := by
  unfold pad
  rw [padStartStr_length, intToString_nonneg n hn]
  have hlt : n.toNat < 10 ^ e := by
    have hcast : (n.toNat : ℤ) = n := Int.toNat_of_nonneg hn
    have : (n.toNat : ℤ) < (10 : ℤ) ^ e := by rw [hcast]; exact hb
    exact_mod_cast this
  have hle := Nat.repr_length n.toNat e he hlt
  omega

theorem pad_length_ge (n : ℤ) (size : ℕ) : size ≤ (pad n size).length := by
  unfold pad
  rw [padStartStr_length]
  omega

/-! ## Claim C6: `formatTime` component bounds -/

theorem jsTrunc_eq_floor (q : ℚ) (hq : 0 ≤ q) : jsTrunc q = ⌊q⌋ := if_pos hq

theorem jsRem_bounds (a b : ℚ) (ha : 0 ≤ a) (hb : 0 < b) :
    0 ≤ jsRem a b ∧ jsRem a b < b := by
  have hdiv : 0 ≤ a / b := div_nonneg ha hb.le
  have heq : jsRem a b = b * Int.fract (a / b) := by
    unfold jsRem
    rw [jsTrunc_eq_floor _ hdiv, Int.fract]
    field_simp
  constructor
  · rw [heq]
    exact mul_nonneg hb.le (Int.fract_nonneg _)
  · rw [heq]
    calc b * Int.fract (a / b) < b * 1 :=
        (mul_lt_mul_left hb).mpr (Int.fract_lt_one (a / b))
    _ = b := mul_one b

theorem ftHours_nonneg (s : ℚ) (hs : 0 ≤ s) : 0 ≤ ftHours s :=
  Int.floor_nonneg.mpr (div_nonneg hs (by norm_num))

theorem ftMinutes_bounds (s : ℚ) (hs : 0 ≤ s) :
    0 ≤ ftMinutes s ∧ ftMinutes s < 60 := by
  obtain ⟨h0, h1⟩ := jsRem_bounds s 3600 hs (by norm_num)
  constructor
  · exact Int.floor_nonneg.mpr (div_nonneg h0 (by norm_num))
  · refine Int.floor_lt.mpr ?_
    rw [div_lt_iff₀ (by norm_num : (0:ℚ) < 60)]
    push_cast
    linarith

theorem ftSecs_bounds (s : ℚ) (hs : 0 ≤ s) :
    0 ≤ ftSecs s ∧ ftSecs s < 60 := by
  obtain ⟨h0, h1⟩ := jsRem_bounds s 60 hs (by norm_num)
  constructor
  · exact Int.floor_nonneg.mpr h0
  · refine Int.floor_lt.mpr ?_
    push_cast
    linarith

theorem ftMs_bounds (s : ℚ) (hs : 0 ≤ s) :
    0 ≤ ftMs s ∧ ftMs s < 1000 := by
  obtain ⟨h0, h1⟩ := jsRem_bounds s 1 hs (by norm_num)
  constructor
  · exact Int.floor_nonneg.mpr (by positivity)
  · refine Int.floor_lt.mpr ?_
    push_cast
    nlinarith

/-- Both renderings of one timestamp share their components; only the
separator differs. -/
theorem formatTime_sameBoundary (s : ℚ) (hs : 0 ≤ s) :
    SameBoundary (formatTime s .srt) (formatTime s .vtt) := by
  obtain ⟨hm0, hm1⟩ := ftMinutes_bounds s hs
  obtain ⟨hs0, hs1⟩ := ftSecs_bounds s hs
  obtain ⟨hms0, hms1⟩ := ftMs_bounds s hs
  refine ⟨pad (ftHours s) 2, pad (ftMinutes s) 2, pad (ftSecs s) 2, pad (ftMs s) 3,
    rfl, rfl, pad_length_ge _ 2, pad_digits _ (ftHours_nonneg s hs) 2,
    ?_, pad_digits _ hm0 2, ?_, pad_digits _ hs0 2, ?_, pad_digits _ hms0 3⟩
  · exact pad_length_eq _ hm0 2 2 (by norm_num) (by norm_num; omega) (by norm_num)
  · exact pad_length_eq _ hs0 2 2 (by norm_num) (by norm_num; omega) (by norm_num)
  · exact pad_length_eq _ hms0 3 3 (by norm_num) (by norm_num; omega) (by norm_num)

theorem sameBoundary_isTimestamp {a b : String} (h : SameBoundary a b) :
    IsTimestamp "," a ∧ IsTimestamp "." b := by
  obtain ⟨hh, mm, ss, ms, h1, h2, h3, h4, h5, h6, h7, h8, h9, h10⟩ := h
  exact ⟨⟨hh, mm, ss, ms, h1, h3, h4, h5, h6, h7, h8, h9, h10⟩,
    ⟨hh, mm, ss, ms, h2, h3, h4, h5, h6, h7, h8, h9, h10⟩⟩

/-! ## Claim C6: subtitle content as per-cue joins -/

theorem string_empty_append (s : String) : "" ++ s = s := by
  cases s
  rfl

theorem string_append_empty (s : String) : s ++ "" = s := by
  cases s with
  | mk d =>
    show String.mk (d ++ []) = String.mk d
    rw [List.append_nil]

theorem string_append_assoc (a b c : String) : a ++ b ++ c = a ++ (b ++ c) := by
  cases a with
  | mk x =>
    cases b with
    | mk y =>
      cases c with
      | mk z =>
        show String.mk (x ++ y ++ z) = String.mk (x ++ (y ++ z))
        rw [List.append_assoc]

theorem foldl_string_append (l : List String) :
    ∀ a b : String, l.foldl (· ++ ·) (a ++ b) = a ++ l.foldl (· ++ ·) b := by
  induction l with
  | nil => intro a b; rfl
  | cons c cs ih =>
    intro a b
    show cs.foldl (· ++ ·) (a ++ b ++ c) = a ++ cs.foldl (· ++ ·) (b ++ c)
    rw [string_append_assoc]
    exact ih a (b ++ c)

theorem string_join_cons (a : String) (l : List String) :
    String.join (a :: l) = a ++ String.join l := by
  show l.foldl (· ++ ·) ("" ++ a) = a ++ l.foldl (· ++ ·) ""
  have h := foldl_string_append l a ""
  rw [string_append_empty] at h
  rw [string_empty_append]
  exact h

theorem foldl_append_eq_join {β : Type} (f : β → String) :
    ∀ (l : List β) (init : String),
      l.foldl (fun acc x => acc ++ f x) init = init ++ String.join (l.map f) := by
  intro l
  induction l with
  | nil =>
    intro init
    show init = init ++ String.join []
    rw [show String.join [] = "" from rfl, string_append_empty]
  | cons x xs ih =>
    intro init
    show xs.foldl _ (init ++ f x) = init ++ String.join ((x :: xs).map f)
    rw [ih (init ++ f x), List.map_cons, string_join_cons, string_append_assoc]

/-! ## Claim C6 -/

/-- C6: the SRT and VTT contents produced by `generateSubtitles` are both
per-cue joins over the same (aligned) segment list, so the `i`-th cue draws
its boundaries from the same `segs[i].start`/`segs[i].end`; each boundary
renders as `HH:MM:SS,mmm` in SRT and `HH:MM:SS.mmm` in VTT with identical
hour/minute/second/millisecond components. -/
theorem c6_subtitle_formats (segs : List Segment)
    (hnn : ∀ seg ∈ segs, 0 ≤ seg.start ∧ 0 ≤ seg.stop) :
    srtContentOf segs = String.join ((segs.enum).map (fun p => srtCue p.1 p.2)) ∧
    vttContentOf segs = "WEBVTT\n\n" ++ String.join (segs.map vttCue) ∧
    (∀ i, ∀ hi : i < segs.length,
      SameBoundary (formatTime (segs.get ⟨i, hi⟩).start .srt)
        (formatTime (segs.get ⟨i, hi⟩).start .vtt) ∧
      SameBoundary (formatTime (segs.get ⟨i, hi⟩).stop .srt)
        (formatTime (segs.get ⟨i, hi⟩).stop .vtt) ∧
      IsTimestamp "," (formatTime (segs.get ⟨i, hi⟩).start .srt) ∧
      IsTimestamp "," (formatTime (segs.get ⟨i, hi⟩).stop .srt) ∧
      IsTimestamp "." (formatTime (segs.get ⟨i, hi⟩).start .vtt) ∧
      IsTimestamp "." (formatTime (segs.get ⟨i, hi⟩).stop .vtt)) := by
  refine ⟨?_, ?_, ?_⟩
  · unfold srtContentOf
    rw [foldl_append_eq_join (fun p => srtCue p.1 p.2) segs.enum "",
      string_empty_append]
  · unfold vttContentOf
    rw [foldl_append_eq_join vttCue segs "WEBVTT\n\n"]
  · intro i hi
    obtain ⟨h0, h1⟩ := hnn (segs.get ⟨i, hi⟩) (segs.get_mem _ _)
    have hb1 := formatTime_sameBoundary _ h0
    have hb2 := formatTime_sameBoundary _ h1
    obtain ⟨ht1, ht2⟩ := sameBoundary_isTimestamp hb1
    obtain ⟨ht3, ht4⟩ := sameBoundary_isTimestamp hb2
    exact ⟨hb1, hb2, ht1, ht3, ht2, ht4⟩

/-- Witness for C6 at a concrete two-segment list. -/
theorem c6_witness :
    srtContentOf sampleSegments =
      String.join ((sampleSegments.enum).map (fun p => srtCue p.1 p.2)) ∧
    SameBoundary (formatTime (2 : ℚ) .srt) (formatTime (2 : ℚ) .vtt) := by
  have h := c6_subtitle_formats sampleSegments (by decide)
  refine ⟨h.1, ?_⟩
  have h2 := (h.2.2 1 (by decide)).1
  exact h2
